import Mathlib

/-!
Verification development for pvtools (src/pvtools.py): a per-base coordinate
liftover engine for a single transcript.  The Python source is shallowly
embedded below:

* pandas DataFrames of the partition builders become sorted lists of `Row`
  (name, start, stop columns; stop is the source column End, renamed because
  end is a Lean keyword);
* positions are `Int` (1-based inclusive, as in the source; derived bounds
  such as an upstream end of 0 can be non-positive);
* Python exceptions (IndexError from indexing an empty array, TypeError from
  comparing an index with None, pandas ValueError on mismatched column
  lengths) become `Option.none`; the one error message the source formats
  itself (the liftover length check) becomes `Except.error`;
* the JSON metadata fields ExonStarts/ExonEnds/CDSStarts/CDSEnds become list
  fields; ExonCount and CDSCount are taken to equal the lengths of the
  corresponding arrays (spec section 6: parallel arrays);
* pandas sort_values on the Start column becomes a merge sort on the start
  field; Python str.startswith, == and the (regex-free) pandas
  Series.str.contains become character-list prefix and infix tests.

Apostrophes inside region-name string literals are written with the escape
x27, so "5\x27 UTR Exon " is the source string for 5-prime UTR exon names.
-/

/-- One row of a partition DataFrame: columns Name, Start, End of the source
(the End column is called stop here because end is a Lean keyword). -/
structure Row where
  name : String
  start : Int
  stop : Int
deriving DecidableEq, Repr

/-- The in-memory part of the source Sequence object: the base string and the
parsed JSON metadata arrays (file parsing is out of scope, spec section 1). -/
structure Sequence where
  name : String
  seq : List Char
  exonStarts : List Int
  exonEnds : List Int
  cdsStarts : List Int
  cdsEnds : List Int
deriving DecidableEq, Repr

/-- Source attribute: self.len = len(self.seq). -/
def Sequence.len (s : Sequence) : Nat := s.seq.length

/-- Python str.startswith on character lists. -/
def strStarts (s pre : String) : Bool := pre.data.isPrefixOf s.data

/-- Plain-substring containment, modelling pandas Series.str.contains for the
metacharacter-free patterns the source uses. -/
def strContains (s pat : String) : Bool :=
  (List.range (s.data.length + 1)).any (fun i => pat.data.isPrefixOf (s.data.drop i))

/-- Python list(range(a, a + n)): n consecutive integers from a (empty when
n is not positive). -/
def intRange (a : Int) (n : Int) : List Int :=
  (List.range n.toNat).map (fun k : Nat => a + (k : Int))

/-- Python list(range(1, n + 1)). -/
def natRange1 (n : Int) : List Int :=
  (List.range n.toNat).map (fun k : Nat => (k : Int) + 1)

/-- Generated region names: pre followed by 1-based index, one per interval,
as in the source list comprehensions over range(len(...)). -/
def numNames (pre : String) (n : Nat) : List String :=
  (List.range n).map (fun x => pre ++ toString (x + 1))

/-- Rows assembled columnwise from the Name, Start and End column lists, as
pandas builds a DataFrame from the three lists. -/
def rowsZip (names : List String) (starts stops : List Int) : List Row :=
  List.zipWith (fun n p => ⟨n, p.1, p.2⟩) names (starts.zip stops)

/-- The ordering pandas df.sort_values uses on the Start column. -/
def rowLE (a b : Row) : Prop := a.start ≤ b.start

instance : DecidableRel rowLE := fun a b => inferInstanceAs (Decidable (a.start ≤ b.start))

instance : IsTotal Row rowLE := ⟨fun a b => Int.le_total a.start b.start⟩

instance : IsTrans Row rowLE := ⟨fun _ _ _ => Int.le_trans⟩

/-- pandas df.sort_values on the Start column: a sort by start.  Rows sharing
a start are only ever zero-width sentinels which neither annotate nor liftover
observe, so the unstable pandas quicksort and this stable insertion sort give
the same downstream results. -/
def sortRows (rows : List Row) : List Row :=
  rows.insertionSort rowLE

/-- Source Sequence.get_exon_dataframe: exon rows, the gap introns between
consecutive exons, and the Upstream/Downstream sentinels, sorted by Start.
none models the IndexError on an empty exon array and the pandas ValueError
when the column lists end up with different lengths (which happens exactly
when ExonStarts and ExonEnds have different lengths). -/
def get_exon_dataframe (s : Sequence) : Option (List Row) :=
  match s.exonStarts, s.exonEnds with
  | e0 :: es', ee0 :: ee' =>
    let es := e0 :: es'
    let ee := ee0 :: ee'
    let exonNames := numNames "Exon " es.length
    let intronStarts := ee.dropLast.map (fun x => x + 1)
    let intronEnds := (es.drop 1).map (fun x => x - 1)
    let intronNames := numNames "Intron " intronStarts.length
    let starts := es ++ intronStarts ++ [1, ee'.getLastD ee0 + 1]
    let ends := ee ++ intronEnds ++ [e0 - 1, (s.len : Int)]
    let names := exonNames ++ intronNames ++ ["Upstream", "Downstream"]
    if names.length = starts.length ∧ starts.length = ends.length then
      some (sortRows (rowsZip names starts ends))
    else none
  | _, _ => none

/-- Source Sequence.get_atg_pos: self.data[CDSStarts][0]. -/
def get_atg_pos (s : Sequence) : Option Int := s.cdsStarts.head?

/-- Source Sequence.get_stop_pos: self.data[CDSEnds][-1]. -/
def get_stop_pos (s : Sequence) : Option Int := s.cdsEnds.getLast?

/-- Source Sequence.get_atg_exon_index: index of the first exon interval
containing the ATG position; none models the implicit None returned when no
exon contains it. -/
def get_atg_exon_index (s : Sequence) : Option Nat := do
  let atg ← get_atg_pos s
  (s.exonStarts.zip s.exonEnds).findIdx? (fun p => decide (p.1 ≤ atg ∧ atg ≤ p.2))

/-- Source Sequence.get_stop_exon_index. -/
def get_stop_exon_index (s : Sequence) : Option Nat := do
  let stop ← get_stop_pos s
  (s.exonStarts.zip s.exonEnds).findIdx? (fun p => decide (p.1 ≤ stop ∧ stop ≤ p.2))

/-- The 5-prime UTR exon pieces of get_cds_dataframe: whole exons before the
ATG exon (index i), then the ATG exon cut one base before the ATG. -/
def utr5Pieces (zs : List (Int × Int)) (i : Nat) (atg : Int) : List (Int × Int) :=
  zs.take i ++ (match zs[i]? with
    | some p => [(p.1, atg - 1)]
    | none => [])

/-- The 3-prime UTR exon pieces of get_cds_dataframe: the stop exon (index i)
cut one base after the stop, then the whole exons after it. -/
def utr3Pieces (zs : List (Int × Int)) (i : Nat) (stop : Int) : List (Int × Int) :=
  match zs[i]? with
  | some p => (stop + 1, p.2) :: zs.drop (i + 1)
  | none => []

/-- First End value among rows with the given exact Name, modelling the source
pattern df[df.Name == nm].End.values[0]; none is the IndexError when no row
matches. -/
def lookupEnd (df : List Row) (nm : String) : Option Int :=
  ((df.filter (fun r => r.name == nm)).head?).map (fun r => r.stop)

/-- First Start value among rows with the given exact Name. -/
def lookupStart (df : List Row) (nm : String) : Option Int :=
  ((df.filter (fun r => r.name == nm)).head?).map (fun r => r.start)

/-- Source Sequence.get_cds_dataframe: CDS rows, gap introns between CDS
intervals, 5-prime and 3-prime UTR exon pieces with their gap introns, and the
Upstream/Downstream sentinels whose outer bounds are looked up in the exon
DataFrame; sorted by Start.  none models any exception on the way: a failing
exon DataFrame, an empty CDS array (IndexError), or an ATG/stop position lying
in no exon (the source then compares an int with None, a TypeError).  The
column lists always have equal lengths here, even when CDSStarts and CDSEnds
have different lengths, so pandas raises nothing for that case and the rows
simply pair the misaligned columns, as in the source. -/
def get_cds_dataframe (s : Sequence) : Option (List Row) := do
  let cs := s.cdsStarts
  let ce := s.cdsEnds
  let cdsNames := numNames "CDS " cs.length
  let intronStarts := ce.dropLast.map (fun x => x + 1)
  let intronEnds := (cs.drop 1).map (fun x => x - 1)
  let intronNames := numNames "Intron " intronStarts.length
  let exonDf ← get_exon_dataframe s
  let upstreamEnd ← lookupEnd exonDf "Upstream"
  let atg ← get_atg_pos s
  let i ← get_atg_exon_index s
  let utr5 := utr5Pieces (s.exonStarts.zip s.exonEnds) i atg
  let utr5Starts := utr5.map Prod.fst
  let utr5Ends := utr5.map Prod.snd
  let utr5Names := numNames "5\x27 UTR Exon " utr5Starts.length
  let utr5IntronStarts := utr5Ends.dropLast.map (fun x => x + 1)
  let utr5IntronEnds := (utr5Starts.drop 1).map (fun x => x - 1)
  let utr5IntronNames := numNames "5\x27 UTR Intron " utr5IntronStarts.length
  let stop ← get_stop_pos s
  let i2 ← get_stop_exon_index s
  let utr3 := utr3Pieces (s.exonStarts.zip s.exonEnds) i2 stop
  let utr3Starts := utr3.map Prod.fst
  let utr3Ends := utr3.map Prod.snd
  let utr3Names := numNames "3\x27 UTR Exon " utr3Starts.length
  let utr3IntronStarts := utr3Ends.dropLast.map (fun x => x + 1)
  let utr3IntronEnds := (utr3Starts.drop 1).map (fun x => x - 1)
  let utr3IntronNames := numNames "3\x27 UTR Intron " utr3IntronStarts.length
  let dnStart ← lookupStart exonDf "Downstream"
  let starts := cs ++ intronStarts ++ utr5Starts ++ utr5IntronStarts ++
    utr3Starts ++ utr3IntronStarts ++ [1, dnStart]
  let ends := ce ++ intronEnds ++ utr5Ends ++ utr5IntronEnds ++
    utr3Ends ++ utr3IntronEnds ++ [upstreamEnd, (s.len : Int)]
  let names := cdsNames ++ intronNames ++ utr5Names ++ utr5IntronNames ++
    utr3Names ++ utr3IntronNames ++ ["Upstream", "Downstream"]
  return sortRows (rowsZip names starts ends)

/-- The accumulation loop of Sequence.annotate: each row contributes its Name
repeated End - Start + 1 times (Python list repetition is empty for a
non-positive count, hence toNat). -/
def annotateRows : List Row → List String
  | [] => []
  | r :: rest => List.replicate (r.stop - r.start + 1).toNat r.name ++ annotateRows rest

/-- Source Sequence.annotate: per-base region labels from the CDS partition
(cds = true) or the exon partition (cds = false). -/
def annotate (s : Sequence) (cds : Bool) : Option (List String) :=
  (if cds then get_cds_dataframe s else get_exon_dataframe s).map annotateRows

/-- Sum of End - Start + 1 over the rows whose Name contains pat, the common
body of the four get_utr*_len methods. -/
def utrLenBy (df : List Row) (pat : String) : Int :=
  ((df.filter (fun r => strContains r.name pat)).map (fun r => r.stop - r.start + 1)).sum

/-- Source Sequence.get_utr5_exon_len. -/
def get_utr5_exon_len (s : Sequence) : Option Int :=
  (get_cds_dataframe s).map (fun df => utrLenBy df "5\x27 UTR Exon")

/-- Source Sequence.get_utr5_intron_len. -/
def get_utr5_intron_len (s : Sequence) : Option Int :=
  (get_cds_dataframe s).map (fun df => utrLenBy df "5\x27 UTR Intron")

/-- Source Sequence.get_utr3_exon_len. -/
def get_utr3_exon_len (s : Sequence) : Option Int :=
  (get_cds_dataframe s).map (fun df => utrLenBy df "3\x27 UTR Exon")

/-- Source Sequence.get_utr3_intron_len. -/
def get_utr3_intron_len (s : Sequence) : Option Int :=
  (get_cds_dataframe s).map (fun df => utrLenBy df "3\x27 UTR Intron")

/-- A coding-position token before the final c. prefix is attached: the source
cds_pos list holds plain Python ints for coding, upstream and 5-prime UTR exon
positions and already-formatted strings for the other region kinds. -/
inductive Tok where
  | I : Int → Tok
  | S : String → Tok
deriving DecidableEq, Repr

/-- The final f-string of liftover: the fixed coding-DNA prefix c. followed by
the token. -/
def renderTok : Tok → String
  | .I n => "c." ++ toString n
  | .S t => "c." ++ t

/-- The three running counters of the liftover loop. -/
structure LiftState where
  cdsSum : Int
  utr5Off : Int
  utr3Sum : Int
deriving DecidableEq, Repr

/-- One iteration of the liftover loop over a sorted CDS-partition row,
dispatching on the row Name exactly as the source if/elif chain does.  aUp is
get_atg_pos() - get_utr5_intron_len() (a constant the source recomputes inside
the Upstream branch) and utr3ExonLen is get_utr3_exon_len() (recomputed inside
the Downstream branch). -/
def liftoverStep (aUp utr3ExonLen : Int) (st : LiftState) (r : Row) : LiftState × List Tok :=
  let cdsLen := r.stop - r.start + 1
  if strStarts r.name "CDS" then
    ({ st with cdsSum := st.cdsSum + cdsLen }, (intRange st.cdsSum cdsLen).map Tok.I)
  else if strStarts r.name "Intron" then
    (st, (natRange1 cdsLen).map (fun x => Tok.S (toString (st.cdsSum - 1) ++ "+" ++ toString x)))
  else if r.name = "Upstream" then
    (st, (natRange1 r.stop).map (fun x => Tok.I (x - aUp)))
  else if strStarts r.name "5\x27 UTR Exon" then
    ({ st with utr5Off := st.utr5Off + cdsLen }, (intRange st.utr5Off cdsLen).map Tok.I)
  else if strStarts r.name "5\x27 UTR Intron" then
    (st, (natRange1 cdsLen).map (fun x => Tok.S (toString (st.utr5Off - 1) ++ "+" ++ toString x)))
  else if r.name = "Downstream" then
    (st, (List.range cdsLen.toNat).map
      (fun x : Nat => Tok.S ("*" ++ toString ((x : Int) + (utr3ExonLen + 1)))))
  else if strStarts r.name "3\x27 UTR Exon" then
    ({ st with utr3Sum := st.utr3Sum + cdsLen },
      (intRange st.utr3Sum cdsLen).map (fun v => Tok.S ("*" ++ toString v)))
  else if strStarts r.name "3\x27 UTR Intron" then
    (st, (natRange1 cdsLen).map (fun x => Tok.S ("*" ++ toString (st.utr3Sum - 1) ++ "+" ++ toString x)))
  else
    (st, List.replicate cdsLen.toNat (Tok.S "."))

/-- The liftover loop: thread the counters through the sorted rows,
concatenating the emitted tokens. -/
def liftoverLoop (aUp utr3ExonLen : Int) (st : LiftState) : List Row → List Tok
  | [] => []
  | r :: rest =>
    let p := liftoverStep aUp utr3ExonLen st r
    p.2 ++ liftoverLoop aUp utr3ExonLen p.1 rest

/-- The error message of the liftover length check. -/
def liftoverErrMsg (expected generated : Nat) : String :=
  "LiftOver length error: expected " ++ toString expected ++ " bp, " ++
    "but generated: " ++ toString generated ++ " bp"

/-- Source Sequence.liftover: run the loop over the sorted CDS partition with
counters starting at cds_sum = 1, utr5_exon_offset = -(5-prime UTR exon
length), utr3_exon_sum = 1; raise ValueError (Except.error) when the token
count differs from the sequence length, else prefix every token with c. .
The outer none models an exception thrown while building the CDS DataFrame. -/
def liftover (s : Sequence) : Option (Except String (List String)) := do
  let df ← get_cds_dataframe s
  let utr5ExonLen ← get_utr5_exon_len s
  let utr5IntronLen ← get_utr5_intron_len s
  let utr3ExonLen ← get_utr3_exon_len s
  let atg ← get_atg_pos s
  let toks := liftoverLoop (atg - utr5IntronLen) utr3ExonLen ⟨1, -1 * utr5ExonLen, 1⟩ df
  if toks.length ≠ s.len then
    return Except.error (liftoverErrMsg s.len toks.length)
  else
    return Except.ok (toks.map renderTok)

/-- The data Start and End attributes of the GRCh37/GRCh38 Sequence objects,
the only metadata the lookup-table builder reads from them. -/
structure GenomeSeq where
  dataStart : Int
  dataEnd : Int
deriving DecidableEq, Repr

/-- The lookup table, stored columnwise as the pandas DataFrame is. -/
structure LookupTab where
  startPos : List Int
  atgPos : List Int
  transcriptPos : List String
  g37Pos : List Int
  g38Pos : List Int
  allele : List Char
  exonAnn : List String
  cdsAnn : List String
deriving DecidableEq, Repr

/-- Source LookupTable._build_lookup_table: the eight per-base columns.  none
models any propagated exception: the IndexError on an empty CDS array, an
exception out of liftover or annotate, and the pandas ValueError raised when
the eight columns do not all have the same length (pandas never truncates or
pads a column). -/
def build_lookup_table (ng : Sequence) (g7 g8 : GenomeSeq) : Option LookupTab := do
  let ngPos1 := (List.range ng.len).map (fun k : Nat => (k : Int) + 1)
  let c0 ← ng.cdsStarts.head?
  let ngPos2 := ngPos1.map (fun x => x - c0)
  let lifted ← liftover ng
  let ngPos3 ← match lifted with
    | .ok l => some l
    | .error _ => none
  let g7Pos := intRange g7.dataStart (g7.dataEnd + 1 - g7.dataStart)
  let g8Pos := intRange g8.dataStart (g8.dataEnd + 1 - g8.dataStart)
  let allele := ng.seq
  let annot1 ← annotate ng false
  let annot2 ← annotate ng true
  if ngPos2.length = ngPos1.length ∧ ngPos3.length = ngPos1.length ∧
      g7Pos.length = ngPos1.length ∧ g8Pos.length = ngPos1.length ∧
      allele.length = ngPos1.length ∧ annot1.length = ngPos1.length ∧
      annot2.length = ngPos1.length then
    return ⟨ngPos1, ngPos2, ngPos3, g7Pos, g8Pos, allele, annot1, annot2⟩
  else
    none

/-- Modelled from the spec: the GenomicToTranscriptMapper component (spec
section 4.5) is code of this repository that is not under src; only the spec
describes it.  Loop body: iterate CDS intervals in order, accumulating bp_sum
of full CDS interval lengths not yet containing the position; when the
containing interval is found, return genomic_position - interval_start + 1 +
bp_sum.  A position in no interval is an underspecified edge case (spec
section 9) modelled as none. -/
def gttLoop (gpos : Int) : List (Int × Int) → Int → Option Int
  | [], _ => none
  | (s, e) :: rest, bpSum =>
    if s ≤ gpos ∧ gpos ≤ e then some (gpos - s + 1 + bpSum)
    else gttLoop gpos rest (bpSum + (e - s + 1))

/-- Modelled from the spec: GenomicToTranscriptMapper.map (spec section 4.5),
absent from src.  If the genomic position precedes the first mRNA segment
start the result is genomic_position - first_mRNA_start - cds_start + 1;
otherwise the CDS intervals are scanned by gttLoop.  none models the missing
first mRNA start (empty array). -/
def mapGenomicToTranscript (gpos : Int) (mrnaStarts : List Int)
    (cdsIntervals : List (Int × Int)) (cdsStart : Int) : Option Int :=
  match mrnaStarts.head? with
  | none => none
  | some first =>
    if gpos < first then some (gpos - first - cdsStart + 1)
    else gttLoop gpos cdsIntervals 0

instance {e a : Type} [DecidableEq e] [DecidableEq a] : DecidableEq (Except e a) := fun x y =>
  match x, y with
  | .error u, .error v =>
    if h : u = v then isTrue (by rw [h]) else isFalse (by simp [h])
  | .ok u, .ok v =>
    if h : u = v then isTrue (by rw [h]) else isFalse (by simp [h])
  | .error _, .ok _ => isFalse (by simp)
  | .ok _, .error _ => isFalse (by simp)

/-- The (Start, End) coordinates of a row. -/
def proj (r : Row) : Int × Int := (r.start, r.stop)

/-- Span sum over coordinate pairs: End - Start + 1, non-positive spans
counting as zero. -/
def pSpanSum (l : List (Int × Int)) : Nat :=
  (l.map (fun q => (q.2 - q.1 + 1).toNat)).sum

/-- Span sum over partition rows. -/
def spanSum (df : List Row) : Nat :=
  (df.map (fun r => (r.stop - r.start + 1).toNat)).sum

/-- How many coordinate pairs contain position p. -/
def pCount (p : Int) (l : List (Int × Int)) : Nat :=
  l.countP (fun q => decide (q.1 ≤ p ∧ p ≤ q.2))

/-- How many partition rows contain position p. -/
def countCover (p : Int) (df : List Row) : Nat :=
  df.countP (fun r => decide (r.start ≤ p ∧ p ≤ r.stop))

/-- Two coordinate pairs share no position. -/
def pDisj (q r : Int × Int) : Prop := q.2 < r.1 ∨ r.2 < q.1

/-- Two rows share no position. -/
def rowDisj (a b : Row) : Prop := a.stop < b.start ∨ b.stop < a.start

/-- The intervals between consecutive members of a cut list: cuts
c0, c1, .., ck yield (c0, c1 - 1), .., (c(k-1), ck - 1). -/
def chainIntervals : List Int → List (Int × Int)
  | a :: b :: rest => (a, b - 1) :: chainIntervals (b :: rest)
  | _ => []

/-- The cut list generated by a list of abutting intervals. -/
def flatCuts (l : List (Int × Int)) : List Int :=
  l.flatMap (fun q => [q.1, q.2 + 1])

/-- The gap intervals between consecutive members of an interval list; this is
what the source intron construction from dropLast/drop-1 computes. -/
def altIntrons : List (Int × Int) → List (Int × Int)
  | (_, e) :: q :: rest => (e + 1, q.1 - 1) :: altIntrons (q :: rest)
  | _ => []

/-- Well-formed interval metadata arrays (claim C3 wording): each interval has
end at least start, and the intervals are sorted ascending and
non-overlapping. -/
def IntervalsOk (l : List (Int × Int)) : Prop :=
  (∀ q ∈ l, q.1 ≤ q.2) ∧ List.Chain' (fun q r : Int × Int => q.2 < r.1) l

/-- Well-formed metadata for a coding transcript (spec sections 2 and 3 and
claim C3): parallel exon and CDS arrays describing at least one exon and one
CDS interval, each array pair sorted ascending and non-overlapping with end
at least start, every exon within 1..seq_length, and the CDS region contained
in the exon region. -/
def Wf (s : Sequence) : Prop :=
  s.exonStarts ≠ [] ∧ s.cdsStarts ≠ [] ∧
  s.exonStarts.length = s.exonEnds.length ∧
  s.cdsStarts.length = s.cdsEnds.length ∧
  IntervalsOk (s.exonStarts.zip s.exonEnds) ∧
  IntervalsOk (s.cdsStarts.zip s.cdsEnds) ∧
  (∀ q ∈ s.exonStarts.zip s.exonEnds, 1 ≤ q.1 ∧ q.2 ≤ (s.len : Int)) ∧
  (∀ q ∈ s.cdsStarts.zip s.cdsEnds, ∃ w ∈ s.exonStarts.zip s.exonEnds, w.1 ≤ q.1 ∧ q.2 ≤ w.2)

/-- Executable adjacent-pair check, used to decide List.Chain by evaluation. -/
def chainB {α : Type} (R : α → α → Bool) : List α → Bool
  | [] => true
  | [_] => true
  | a :: b :: rest => R a b && chainB R (b :: rest)

instance (l : List (Int × Int)) : Decidable (IntervalsOk l) :=
  decidable_of_iff (l.all (fun q => decide (q.1 ≤ q.2)) = true ∧
      chainB (fun q r : Int × Int => decide (q.2 < r.1)) l = true) (by
    have hch : ∀ m : List (Int × Int),
        chainB (fun q r : Int × Int => decide (q.2 < r.1)) m = true ↔
          List.Chain' (fun q r : Int × Int => q.2 < r.1) m := by
      intro m
      induction m with
      | nil => simp [chainB]
      | cons a rest ih =>
        cases rest with
        | nil => simp [chainB]
        | cons b rest2 =>
          rw [chainB, Bool.and_eq_true, List.chain'_cons, ih]
          simp
    rw [hch, List.all_eq_true]
    simp only [decide_eq_true_eq]
    exact Iff.rfl)

instance (s : Sequence) : Decidable (Wf s) :=
  inferInstanceAs (Decidable (_ ∧ _ ∧ _ ∧ _ ∧ _ ∧ _ ∧ _ ∧ _))

/-- The canonical example of the spec (section 8): length 10, one exon 1..10,
one CDS 4..7. -/
def seqCanon : Sequence :=
  { name := "NG_TEST"
    seq := ['A', 'C', 'G', 'A', 'T', 'G', 'T', 'A', 'A', 'C']
    exonStarts := [1]
    exonEnds := [10]
    cdsStarts := [4]
    cdsEnds := [7] }

/-- Malformed metadata: the exon arrays are not sorted (claim C5). -/
def seqUnsorted : Sequence :=
  { name := "BAD_UNSORTED"
    seq := ['A', 'A', 'A', 'A', 'A', 'A', 'A', 'A', 'A', 'A']
    exonStarts := [5, 1]
    exonEnds := [8, 3]
    cdsStarts := [6]
    cdsEnds := [7] }

/-- Malformed metadata: the CDS start lies outside every exon (claim C5). -/
def seqAtgOutside : Sequence :=
  { name := "BAD_ATG"
    seq := ['A', 'A', 'A', 'A', 'A', 'A', 'A', 'A', 'A', 'A']
    exonStarts := [4]
    exonEnds := [8]
    cdsStarts := [2]
    cdsEnds := [7] }

/-- Well-formed metadata whose start codon coincides with the first exon
start: no 5-prime UTR base precedes the ATG (claim C7). -/
def seqAtgAtExonStart : Sequence :=
  { name := "NO_UTR5"
    seq := ['A', 'T', 'G', 'A', 'A', 'A', 'T', 'A', 'A', 'C']
    exonStarts := [1]
    exonEnds := [10]
    cdsStarts := [1]
    cdsEnds := [6] }

lemma spanSum_eq_pSpanSum (df : List Row) : spanSum df = pSpanSum (df.map proj) := by
  unfold spanSum pSpanSum
  rw [List.map_map]
  rfl

lemma countCover_eq_pCount (p : Int) (df : List Row) :
    countCover p df = pCount p (df.map proj) := by
  unfold countCover pCount
  rw [List.countP_map]
  rfl

lemma pairwise_rowDisj_iff (df : List Row) :
    List.Pairwise pDisj (df.map proj) ↔ List.Pairwise rowDisj df := by
  rw [List.pairwise_map]
  rfl

lemma chainIntervals_cons₂ (a b : Int) (l : List Int) :
    chainIntervals (a :: b :: l) = (a, b - 1) :: chainIntervals (b :: l) := rfl

lemma chain_le_getLastD (a : Int) (l : List Int)
    (h : List.Chain' (fun x y : Int => x ≤ y) (a :: l)) : a ≤ l.getLastD a := by
  induction l generalizing a with
  | nil => simp
  | cons b t ih =>
    rcases List.chain'_cons.mp h with ⟨hab, h2⟩
    rw [List.getLastD_cons]
    exact le_trans hab (ih b h2)

lemma pSpanSum_chain (l : List Int) (a : Int)
    (h : List.Chain' (fun x y : Int => x ≤ y) (a :: l)) :
    pSpanSum (chainIntervals (a :: l)) = ((l.getLastD a) - a).toNat := by
  induction l generalizing a with
  | nil => simp [pSpanSum, chainIntervals]
  | cons b t ih =>
    rcases List.chain'_cons.mp h with ⟨hab, h2⟩
    have hb := chain_le_getLastD b t h2
    rw [List.getLastD_cons, chainIntervals_cons₂]
    unfold pSpanSum at *
    rw [List.map_cons, List.sum_cons, ih b h2]
    omega

lemma pCount_chain (l : List Int) (a p : Int)
    (h : List.Chain' (fun x y : Int => x ≤ y) (a :: l)) :
    pCount p (chainIntervals (a :: l)) =
      if a ≤ p ∧ p ≤ l.getLastD a - 1 then 1 else 0 := by
  induction l generalizing a with
  | nil =>
    simp only [chainIntervals, List.getLastD_nil, pCount, List.countP_nil]
    split <;> omega
  | cons b t ih =>
    rcases List.chain'_cons.mp h with ⟨hab, h2⟩
    have hb := chain_le_getLastD b t h2
    rw [List.getLastD_cons, chainIntervals_cons₂]
    unfold pCount at *
    rw [List.countP_cons, ih b h2]
    simp only [decide_eq_true_eq]
    split_ifs <;> omega

lemma mem_chain_bounds (l : List Int) (a : Int)
    (h : List.Chain' (fun x y : Int => x ≤ y) (a :: l)) :
    ∀ q ∈ chainIntervals (a :: l), a ≤ q.1 ∧ q.1 ≤ q.2 + 1 ∧ q.2 + 1 ≤ l.getLastD a := by
  induction l generalizing a with
  | nil => simp [chainIntervals]
  | cons b t ih =>
    rcases List.chain'_cons.mp h with ⟨hab, h2⟩
    have hb := chain_le_getLastD b t h2
    intro q hq
    rw [chainIntervals_cons₂] at hq
    rw [List.getLastD_cons]
    rcases List.mem_cons.mp hq with rfl | hq
    · refine ⟨le_refl a, by omega, by omega⟩
    · have := ih b h2 q hq
      exact ⟨by omega, this.2.1, this.2.2⟩

lemma chain_pairwise_disj (l : List Int)
    (h : List.Chain' (fun x y : Int => x ≤ y) l) :
    List.Pairwise pDisj (chainIntervals l) := by
  induction l with
  | nil => simp [chainIntervals]
  | cons a rest ih =>
    cases rest with
    | nil => simp [chainIntervals]
    | cons b t =>
      rcases List.chain'_cons.mp h with ⟨hab, h2⟩
      rw [chainIntervals_cons₂]
      refine List.Pairwise.cons ?_ (ih h2)
      intro q hq
      have := mem_chain_bounds t b h2 q hq
      left
      omega

lemma altIntrons_cons₂ (x y : Int × Int) (l : List (Int × Int)) :
    altIntrons (x :: y :: l) = (x.2 + 1, y.1 - 1) :: altIntrons (y :: l) := rfl

lemma flatCuts_cons (q : Int × Int) (l : List (Int × Int)) :
    flatCuts (q :: l) = q.1 :: (q.2 + 1) :: flatCuts l := by
  simp [flatCuts]

/-- A nonempty abutting-interval list together with its gap intervals and the
trailing gap up to t - 1 is a permutation of the chain tiling of its cut list
extended by t. -/
lemma alt_perm (zs : List (Int × Int)) (q : Int × Int) (t : Int) :
    ((q :: zs) ++ altIntrons (q :: zs) ++ [((zs.getLastD q).2 + 1, t - 1)]).Perm
      (chainIntervals (flatCuts (q :: zs) ++ [t])) := by
  induction zs generalizing q with
  | nil =>
    have h1 : flatCuts [q] ++ [t] = [q.1, q.2 + 1, t] := by simp [flatCuts]
    rw [h1]
    have h2 : chainIntervals [q.1, q.2 + 1, t] = [(q.1, q.2 + 1 - 1), (q.2 + 1, t - 1)] := rfl
    have h3 : (q.1, q.2 + 1 - 1) = q := by
      have : q.2 + 1 - 1 = q.2 := by omega
      rw [this]
    rw [h2, h3]
    simp only [altIntrons, List.getLastD_nil, List.append_nil]
    exact List.Perm.refl _
  | cons r rest ih =>
    have hlast : (r :: rest).getLastD q = rest.getLastD r := List.getLastD_cons q r rest
    rw [hlast, flatCuts_cons, altIntrons_cons₂]
    have hshape :
        chainIntervals (q.1 :: (q.2 + 1) :: (flatCuts (r :: rest) ++ [t])) =
          (q.1, q.2 + 1 - 1) :: (q.2 + 1, r.1 - 1) ::
            chainIntervals (flatCuts (r :: rest) ++ [t]) := by
      rw [flatCuts_cons]
      rfl
    have hq : (q.1, q.2 + 1 - 1) = q := by
      have : q.2 + 1 - 1 = q.2 := by omega
      rw [this]
    rw [hq] at hshape
    simp only [List.cons_append]
    rw [hshape]
    refine List.Perm.cons q ?_
    have hmid :
        ((r :: rest) ++ ((q.2 + 1, r.1 - 1) :: altIntrons (r :: rest)) ++
            [((rest.getLastD r).2 + 1, t - 1)]).Perm
          ((q.2 + 1, r.1 - 1) ::
            ((r :: rest) ++ altIntrons (r :: rest) ++ [((rest.getLastD r).2 + 1, t - 1)])) := by
      rw [List.append_assoc, List.append_assoc]
      exact List.perm_middle
    exact hmid.trans (List.Perm.cons _ (ih r))

lemma altIntrons_append (xs ys : List (Int × Int)) (x y : Int × Int) :
    altIntrons ((x :: xs) ++ (y :: ys)) =
      altIntrons (x :: xs) ++ ((xs.getLastD x).2 + 1, y.1 - 1) :: altIntrons (y :: ys) := by
  induction xs generalizing x with
  | nil => rfl
  | cons z rest ih =>
    rw [List.getLastD_cons]
    have : (x :: z :: rest) ++ (y :: ys) = x :: z :: (rest ++ (y :: ys)) := by simp
    rw [this, altIntrons_cons₂, altIntrons_cons₂]
    have h2 : z :: (rest ++ y :: ys) = (z :: rest) ++ (y :: ys) := by simp
    rw [h2, ih z]
    simp

/-- The source intron construction (starts from dropLast of the ends plus one,
ends from drop-1 of the starts minus one, zipped) computes exactly the gap
intervals of the interval list. -/
lemma zipIntrons_eq_alt (l : List (Int × Int)) :
    ((l.map Prod.snd).dropLast.map (fun x => x + 1)).zip
      (((l.map Prod.fst).drop 1).map (fun x => x - 1)) = altIntrons l := by
  induction l with
  | nil => rfl
  | cons q rest ih =>
    cases rest with
    | nil => rfl
    | cons r rest' =>
      rw [altIntrons_cons₂, ← ih]
      simp [List.dropLast_cons_of_ne_nil]

lemma rowsZip_append (n1 n2 : List String) (s1 s2 e1 e2 : List Int)
    (h1 : n1.length = s1.length) (h2 : s1.length = e1.length) :
    rowsZip (n1 ++ n2) (s1 ++ s2) (e1 ++ e2) = rowsZip n1 s1 e1 ++ rowsZip n2 s2 e2 := by
  unfold rowsZip
  rw [List.zip_append h2, List.zipWith_append]
  rw [List.length_zip]
  omega

lemma rowsZip_proj (ns : List String) (ss es : List Int)
    (h1 : ns.length = ss.length) (h2 : ss.length = es.length) :
    (rowsZip ns ss es).map proj = ss.zip es := by
  induction ns generalizing ss es with
  | nil =>
    cases ss with
    | nil => simp [rowsZip]
    | cons a t => simp at h1
  | cons n ns' ih =>
    cases ss with
    | nil => simp at h1
    | cons a ss' =>
      cases es with
      | nil => simp at h2
      | cons b es' =>
        simp only [List.length_cons] at h1 h2
        simp only [rowsZip, List.zip_cons_cons, List.zipWith_cons_cons, List.map_cons]
        have hh : proj ⟨n, a, b⟩ = (a, b) := rfl
        rw [hh]
        exact congrArg (List.cons (a, b)) (ih ss' es' (by omega) (by omega))

lemma rowsZip_mem_name (ns : List String) (ss es : List Int) :
    ∀ r ∈ rowsZip ns ss es, r.name ∈ ns := by
  induction ns generalizing ss es with
  | nil => simp [rowsZip]
  | cons n ns' ih =>
    cases ss with
    | nil => simp [rowsZip]
    | cons a ss' =>
      cases es with
      | nil => simp [rowsZip]
      | cons b es' =>
        intro r hr
        simp only [rowsZip, List.zip_cons_cons, List.zipWith_cons_cons] at hr
        rcases List.mem_cons.mp hr with rfl | hr
        · exact List.mem_cons_self _ _
        · exact List.mem_cons_of_mem _ (ih ss' es' r hr)

lemma mem_numNames (pre : String) (k : Nat) :
    ∀ n ∈ numNames pre k, ∃ x : Nat, n = pre ++ toString (x + 1) := by
  intro n hn
  unfold numNames at hn
  rcases List.mem_map.mp hn with ⟨x, _, rfl⟩
  exact ⟨x, rfl⟩

lemma append_ne_of_head_ne (pre x tgt : String) (c c' : Char)
    (hc : pre.data.head? = some c) (ht : tgt.data.head? = some c') (hne : c ≠ c') :
    pre ++ x ≠ tgt := by
  intro he
  have hdata : (pre ++ x).data = tgt.data := congrArg String.data he
  rw [String.data_append] at hdata
  cases hp : pre.data with
  | nil => rw [hp] at hc; simp at hc
  | cons d rest =>
    rw [hp] at hc hdata
    simp only [List.head?_cons, Option.some.injEq] at hc
    rw [List.cons_append] at hdata
    rw [← hdata] at ht
    simp only [List.head?_cons, Option.some.injEq] at ht
    exact hne (by rw [← hc, ← ht])

lemma getLastD_irrel {α : Type} (l : List α) (a b : α) (h : l ≠ []) :
    l.getLastD a = l.getLastD b := by
  cases l with
  | nil => exact absurd rfl h
  | cons x t => rw [List.getLastD_cons, List.getLastD_cons]

lemma getLast?_eq_some_getLastD {α : Type} (a : α) (l : List α) (d : α) :
    (a :: l).getLast? = some ((a :: l).getLastD d) := by
  induction l generalizing a with
  | nil => rfl
  | cons b t ih =>
    rw [List.getLast?_cons_cons, ih b, List.getLastD_cons, List.getLastD_cons,
      List.getLastD_cons]

lemma zip_fst_snd {α β : Type} (l : List (α × β)) :
    (l.map Prod.fst).zip (l.map Prod.snd) = l := by
  induction l with
  | nil => rfl
  | cons q t ih => simp [ih]

lemma zip_getLastD_snd (as bs : List Int) (h : as.length = bs.length) (a b : Int) :
    ((as.zip bs).getLastD (a, b)).2 = bs.getLastD b := by
  induction as generalizing bs a b with
  | nil =>
    cases bs with
    | nil => rfl
    | cons y bs' => simp at h
  | cons x as' ih =>
    cases bs with
    | nil => simp at h
    | cons y bs' =>
      rw [List.zip_cons_cons, List.getLastD_cons, List.getLastD_cons]
      exact ih bs' (by simpa using h) x y

lemma utr5_char (zs : List (Int × Int)) (atg : Int) :
    ∀ i : Nat,
      zs.findIdx? (fun p => decide (p.1 ≤ atg ∧ atg ≤ p.2)) = some i →
      (∀ q ∈ zs, q.1 ≤ q.2) →
      List.Chain' (fun q r : Int × Int => q.2 < r.1) zs →
      utr5Pieces zs i atg ≠ [] ∧
      (utr5Pieces zs i atg).head?.map Prod.fst = zs.head?.map Prod.fst ∧
      ((utr5Pieces zs i atg).getLastD (0, 0)).2 = atg - 1 ∧
      (∀ q ∈ utr5Pieces zs i atg, q.1 ≤ q.2 + 1) ∧
      List.Chain' (fun q r : Int × Int => q.2 + 1 ≤ r.1) (utr5Pieces zs i atg) := by
  induction zs with
  | nil =>
    intro i hfind
    simp [List.findIdx?_nil] at hfind
  | cons q rest ih =>
    intro i hfind hspan hchain
    rw [List.findIdx?_cons] at hfind
    by_cases hq : q.1 ≤ atg ∧ atg ≤ q.2
    · rw [if_pos (by simpa using hq)] at hfind
      have hi : i = 0 := by
        have := Option.some.inj hfind
        omega
      subst hi
      have hu : utr5Pieces (q :: rest) 0 atg = [(q.1, atg - 1)] := by
        simp [utr5Pieces]
      rw [hu]
      refine ⟨by simp, by simp, by simp, ?_, by simp⟩
      intro w hw
      simp only [List.mem_singleton] at hw
      subst hw
      simp only
      omega
    · rw [if_neg (by simpa using hq)] at hfind
      rw [List.findIdx?_succ] at hfind
      cases hrest : rest.findIdx? (fun p => decide (p.1 ≤ atg ∧ atg ≤ p.2)) with
      | none => rw [hrest] at hfind; simp at hfind
      | some j =>
        rw [hrest] at hfind
        simp at hfind
        subst hfind
        have hrne : rest ≠ [] := by
          intro hnil
          rw [hnil] at hrest
          simp [List.findIdx?_nil] at hrest
        have hu : utr5Pieces (q :: rest) (j + 1) atg = q :: utr5Pieces rest j atg := by
          simp [utr5Pieces, List.take_succ_cons, List.getElem?_cons_succ]
        obtain ⟨ihne, ihhead, ihlast, ihspan, ihchain⟩ :=
          ih j hrest (fun w hw => hspan w (List.mem_cons_of_mem _ hw))
            (List.chain'_cons'.mp hchain).2
        obtain ⟨r, rest', rfl⟩ := List.exists_cons_of_ne_nil hrne
        refine ⟨by simp [hu], by simp [hu], ?_, ?_, ?_⟩
        · rw [hu, List.getLastD_cons, getLastD_irrel _ q (0, 0) ihne]
          exact ihlast
        · intro w hw
          rw [hu] at hw
          rcases List.mem_cons.mp hw with rfl | hw
          · have := hspan w (List.mem_cons_self _ _)
            omega
          · exact ihspan w hw
        · rw [hu]
          rw [List.chain'_cons']
          refine ⟨?_, ihchain⟩
          intro y hy
          have hqr : q.2 < r.1 := (List.chain'_cons'.mp hchain).1 r rfl
          have hyfst : (utr5Pieces (r :: rest') j atg).head?.map Prod.fst = some r.1 := by
            rw [ihhead]
            rfl
          cases hhead : (utr5Pieces (r :: rest') j atg).head? with
          | none => rw [hhead] at hy; simp at hy
          | some z =>
            rw [hhead] at hy hyfst
            simp only [Option.mem_def, Option.some.injEq] at hy
            subst hy
            simp at hyfst
            omega

lemma utr3_char (zs : List (Int × Int)) (stop : Int) :
    ∀ i : Nat,
      zs.findIdx? (fun p => decide (p.1 ≤ stop ∧ stop ≤ p.2)) = some i →
      (∀ q ∈ zs, q.1 ≤ q.2) →
      List.Chain' (fun q r : Int × Int => q.2 < r.1) zs →
      utr3Pieces zs i stop ≠ [] ∧
      (utr3Pieces zs i stop).head?.map Prod.fst = some (stop + 1) ∧
      ((utr3Pieces zs i stop).getLastD (0, 0)).2 = (zs.getLastD (0, 0)).2 ∧
      (∀ q ∈ utr3Pieces zs i stop, q.1 ≤ q.2 + 1) ∧
      List.Chain' (fun q r : Int × Int => q.2 + 1 ≤ r.1) (utr3Pieces zs i stop) := by
  induction zs with
  | nil =>
    intro i hfind
    simp [List.findIdx?_nil] at hfind
  | cons q rest ih =>
    intro i hfind hspan hchain
    rw [List.findIdx?_cons] at hfind
    by_cases hq : q.1 ≤ stop ∧ stop ≤ q.2
    · rw [if_pos (by simpa using hq)] at hfind
      have hi : i = 0 := by
        have := Option.some.inj hfind
        omega
      subst hi
      have hu : utr3Pieces (q :: rest) 0 stop = (stop + 1, q.2) :: rest := by
        simp [utr3Pieces]
      rw [hu]
      refine ⟨by simp, by simp, ?_, ?_, ?_⟩
      · rw [List.getLastD_cons, List.getLastD_cons]
        cases hr : rest with
        | nil => simp
        | cons r rest' =>
          rw [getLastD_irrel _ (stop + 1, q.2) q (by simp)]
      · intro w hw
        rcases List.mem_cons.mp hw with rfl | hw
        · simp only
          omega
        · have := hspan w (List.mem_cons_of_mem _ hw)
          omega
      · rw [List.chain'_cons']
        refine ⟨?_, ?_⟩
        · intro y hy
          cases hr : rest with
          | nil => rw [hr] at hy; simp at hy
          | cons r rest' =>
            rw [hr] at hy
            simp only [List.head?_cons, Option.mem_def, Option.some.injEq] at hy
            have hqr : q.2 < r.1 := (List.chain'_cons'.mp hchain).1 r (by rw [hr]; rfl)
            rw [← hy]
            omega
        · exact List.Chain'.imp (fun a b hab => by omega) (List.chain'_cons'.mp hchain).2
    · rw [if_neg (by simpa using hq)] at hfind
      rw [List.findIdx?_succ] at hfind
      cases hrest : rest.findIdx? (fun p => decide (p.1 ≤ stop ∧ stop ≤ p.2)) with
      | none => rw [hrest] at hfind; simp at hfind
      | some j =>
        rw [hrest] at hfind
        simp at hfind
        subst hfind
        have hrne : rest ≠ [] := by
          intro hnil
          rw [hnil] at hrest
          simp [List.findIdx?_nil] at hrest
        have hu : utr3Pieces (q :: rest) (j + 1) stop = utr3Pieces rest j stop := by
          simp [utr3Pieces, List.getElem?_cons_succ, List.drop_succ_cons]
        obtain ⟨ihne, ihhead, ihlast, ihspan, ihchain⟩ :=
          ih j hrest (fun w hw => hspan w (List.mem_cons_of_mem _ hw))
            (List.chain'_cons'.mp hchain).2
        refine ⟨by rw [hu]; exact ihne, by rw [hu]; exact ihhead, ?_, ?_, ?_⟩
        · rw [hu, ihlast, List.getLastD_cons, getLastD_irrel _ q (0, 0) hrne]
        · intro w hw
          rw [hu] at hw
          exact ihspan w hw
        · rw [hu]
          exact ihchain

lemma flatCuts_ne_nil (q : Int × Int) (l : List (Int × Int)) : flatCuts (q :: l) ≠ [] := by
  rw [flatCuts_cons]
  simp

lemma flatCuts_getLastD (l : List (Int × Int)) (q : Int × Int) (d : Int) :
    (flatCuts (q :: l)).getLastD d = (l.getLastD q).2 + 1 := by
  induction l generalizing q d with
  | nil => simp [flatCuts]
  | cons r t ih =>
    rw [flatCuts_cons, List.getLastD_cons, List.getLastD_cons,
      getLastD_irrel _ (q.2 + 1) d (flatCuts_ne_nil r t), ih r d, List.getLastD_cons]

lemma flat_chain (l : List (Int × Int)) (hspan : ∀ q ∈ l, q.1 ≤ q.2 + 1)
    (hchain : List.Chain' (fun q r : Int × Int => q.2 + 1 ≤ r.1) l) :
    List.Chain' (fun x y : Int => x ≤ y) (flatCuts l) := by
  induction l with
  | nil => simp [flatCuts]
  | cons q rest ih =>
    rw [flatCuts_cons]
    cases rest with
    | nil =>
      have hnil : flatCuts ([] : List (Int × Int)) = [] := rfl
      rw [hnil]
      exact List.chain'_cons.mpr ⟨hspan q (by simp), List.chain'_singleton _⟩
    | cons r t =>
      have h3 : List.Chain' (fun x y : Int => x ≤ y) (flatCuts (r :: t)) :=
        ih (fun w hw => hspan w (List.mem_cons_of_mem _ hw)) (List.chain'_cons.mp hchain).2
      rw [flatCuts_cons] at h3
      rw [flatCuts_cons, List.chain'_cons, List.chain'_cons]
      exact ⟨hspan q (by simp), (List.chain'_cons.mp hchain).1, h3⟩

lemma cuts_chain (q : Int × Int) (l : List (Int × Int)) (L : Int)
    (hspan : ∀ w ∈ q :: l, w.1 ≤ w.2 + 1)
    (hchain : List.Chain' (fun w r : Int × Int => w.2 + 1 ≤ r.1) (q :: l))
    (hfirst : 1 ≤ q.1)
    (hlast : (l.getLastD q).2 ≤ L) :
    List.Chain' (fun x y : Int => x ≤ y) (1 :: (flatCuts (q :: l) ++ [L + 1])) ∧
    (flatCuts (q :: l) ++ [L + 1]).getLastD 1 = L + 1 := by
  constructor
  · rw [List.chain'_cons']
    constructor
    · intro y hy
      rw [flatCuts_cons, List.cons_append, List.head?_cons] at hy
      simp only [Option.mem_def, Option.some.injEq] at hy
      omega
    · rw [List.chain'_append]
      refine ⟨flat_chain _ hspan hchain, List.chain'_singleton _, ?_⟩
      intro x hx y hy
      have hgl : (flatCuts (q :: l)).getLast? = some ((flatCuts (q :: l)).getLastD 0) := by
        rw [flatCuts_cons]
        exact getLast?_eq_some_getLastD _ _ _
      rw [hgl, flatCuts_getLastD] at hx
      simp only [Option.mem_def, Option.some.injEq, List.head?_cons] at hx hy
      omega
  · rw [List.getLastD_eq_getLast?, List.getLast?_concat]
    rfl

lemma tiling_from_perm (df : List Row) (cuts : List Int) (L : Nat) (junk : List (Int × Int))
    (hperm : ((df.map proj) ++ junk).Perm (chainIntervals (1 :: cuts)))
    (hjunk : ∀ q ∈ junk, q.1 = q.2 + 1)
    (hchain : List.Chain' (fun x y : Int => x ≤ y) (1 :: cuts))
    (hlast : cuts.getLastD 1 = (L : Int) + 1) :
    spanSum df = L ∧
    (∀ p : Int, 1 ≤ p → p ≤ (L : Int) → countCover p df = 1) ∧
    List.Pairwise rowDisj df ∧
    (∀ r ∈ df, r.start ≤ r.stop + 1) := by
  have hsum : pSpanSum ((df.map proj) ++ junk) = pSpanSum (chainIntervals (1 :: cuts)) := by
    unfold pSpanSum
    exact List.Perm.sum_eq (hperm.map _)
  have hjsum : pSpanSum junk = 0 := by
    unfold pSpanSum
    apply List.sum_eq_zero
    intro x hx
    rcases List.mem_map.mp hx with ⟨q, hq, rfl⟩
    have := hjunk q hq
    omega
  have hchainsum := pSpanSum_chain cuts 1 hchain
  refine ⟨?_, ?_, ?_, ?_⟩
  · have hsplit : pSpanSum (df.map proj) + pSpanSum junk =
        ((cuts.getLastD 1) - 1).toNat := by
      rw [← hchainsum, ← hsum]
      unfold pSpanSum
      rw [List.map_append, List.sum_append]
    rw [spanSum_eq_pSpanSum]
    rw [hlast] at hsplit
    omega
  · intro p h1 h2
    have hc : pCount p ((df.map proj) ++ junk) = pCount p (chainIntervals (1 :: cuts)) :=
      List.Perm.countP_eq _ hperm
    rw [pCount_chain cuts 1 p hchain, hlast] at hc
    have hj0 : pCount p junk = 0 := by
      unfold pCount
      rw [List.countP_eq_zero]
      intro q hq
      have := hjunk q hq
      simp only [decide_eq_true_eq]
      omega
    unfold pCount at hc hj0
    rw [List.countP_append, hj0] at hc
    rw [countCover_eq_pCount]
    unfold pCount
    have hif : (if 1 ≤ p ∧ p ≤ (L : Int) + 1 - 1 then 1 else 0) = 1 :=
      if_pos ⟨h1, by omega⟩
    rw [hif] at hc
    omega
  · have hsub : (df.map proj).Subperm (chainIntervals (1 :: cuts)) :=
      List.Subperm.trans (List.sublist_append_left _ _).subperm hperm.subperm
    obtain ⟨l, hl1, hl2⟩ := hsub
    have hp1 : List.Pairwise pDisj (chainIntervals (1 :: cuts)) := chain_pairwise_disj _ hchain
    have hp2 : List.Pairwise pDisj l := List.Pairwise.sublist hl2 hp1
    have hp3 : List.Pairwise pDisj (df.map proj) := hp2.perm hl1 (fun h => h.symm)
    exact (pairwise_rowDisj_iff df).mp hp3
  · intro r hr
    have hm : proj r ∈ chainIntervals (1 :: cuts) := by
      have hin : proj r ∈ (df.map proj) ++ junk :=
        List.mem_append_left _ (List.mem_map_of_mem _ hr)
      exact (hperm.mem_iff).mp hin
    exact (mem_chain_bounds cuts 1 hchain (proj r) hm).2.1

lemma intRange_length (a n : Int) : (intRange a n).length = n.toNat := by
  unfold intRange
  rw [List.length_map, List.length_range]

lemma natRange1_length (n : Int) : (natRange1 n).length = n.toNat := by
  unfold natRange1
  rw [List.length_map, List.length_range]

lemma liftoverStep_length_up (aUp u3 : Int) (st : LiftState) (r : Row)
    (h : r.name = "Upstream") :
    ((liftoverStep aUp u3 st r).2).length = r.stop.toNat := by
  unfold liftoverStep
  rw [h, if_neg (by decide), if_neg (by decide), if_pos rfl]
  simp only [List.length_map, natRange1_length]

lemma liftoverStep_length_notup (aUp u3 : Int) (st : LiftState) (r : Row)
    (h : r.name ≠ "Upstream") :
    ((liftoverStep aUp u3 st r).2).length = (r.stop - r.start + 1).toNat := by
  unfold liftoverStep
  split_ifs with h1 h2 h3 h4 h5 h6 h7
  · simp only [List.length_map, intRange_length]
  · simp only [List.length_map, natRange1_length]
  · simp only [List.length_map, intRange_length]
  · simp only [List.length_map, natRange1_length]
  · simp only [List.length_map, List.length_range]
  · simp only [List.length_map, intRange_length]
  · simp only [List.length_map, natRange1_length]
  · simp only [List.length_replicate]

lemma liftoverStep_length (aUp u3 : Int) (st : LiftState) (r : Row) :
    ((liftoverStep aUp u3 st r).2).length =
      if r.name = "Upstream" then r.stop.toNat else (r.stop - r.start + 1).toNat := by
  by_cases h : r.name = "Upstream"
  · rw [if_pos h, liftoverStep_length_up aUp u3 st r h]
  · rw [if_neg h, liftoverStep_length_notup aUp u3 st r h]

lemma liftoverLoop_length (aUp u3 : Int) (df : List Row) :
    ∀ st : LiftState,
      (liftoverLoop aUp u3 st df).length =
        (df.map (fun r => if r.name = "Upstream" then r.stop.toNat
          else (r.stop - r.start + 1).toNat)).sum := by
  induction df with
  | nil => intro st; rfl
  | cons r rest ih =>
    intro st
    simp only [liftoverLoop, List.length_append, liftoverStep_length, ih, List.map_cons,
      List.sum_cons]

lemma liftoverLoop_length_spanSum (aUp u3 : Int) (df : List Row) (st : LiftState)
    (hup : ∀ r ∈ df, r.name = "Upstream" → r.start = 1) :
    (liftoverLoop aUp u3 st df).length = spanSum df := by
  rw [liftoverLoop_length]
  unfold spanSum
  congr 1
  apply List.map_congr_left
  intro r hr
  by_cases h : r.name = "Upstream"
  · rw [if_pos h, hup r hr h]
    omega
  · rw [if_neg h]

lemma annotateRows_length (df : List Row) : (annotateRows df).length = spanSum df := by
  induction df with
  | nil => rfl
  | cons r rest ih =>
    simp only [annotateRows, List.length_append, List.length_replicate, ih, spanSum,
      List.map_cons, List.sum_cons]

lemma numNames_length (pre : String) (k : Nat) : (numNames pre k).length = k := by
  simp [numNames]

lemma getLastD_mem {α : Type} (a : α) (l : List α) (d : α) : (a :: l).getLastD d ∈ a :: l := by
  induction l generalizing a with
  | nil => simp
  | cons b t ih =>
    rw [List.getLastD_cons]
    exact List.mem_cons_of_mem a (ih b)

lemma rowsZip_numNames_names (pre : String) (k : Nat) (ss es : List Int) :
    ∀ r ∈ rowsZip (numNames pre k) ss es, ∃ x : Nat, r.name = pre ++ toString (x + 1) :=
  fun r hr => mem_numNames pre k r.name (rowsZip_mem_name _ _ _ r hr)

lemma filter_beq_nil (rows : List Row) (pre tgt : String) (c c' : Char)
    (hnames : ∀ r ∈ rows, ∃ x : Nat, r.name = pre ++ toString (x + 1))
    (hc : pre.data.head? = some c) (ht : tgt.data.head? = some c') (hne : c ≠ c') :
    rows.filter (fun r => r.name == tgt) = [] := by
  rw [List.filter_eq_nil_iff]
  intro r hr
  obtain ⟨x, hx⟩ := hnames r hr
  simp only [beq_iff_eq, hx]
  exact append_ne_of_head_ne pre (toString (x + 1)) tgt c c' hc ht hne

lemma mem_rowsZip_numNames_ne (pre tgt : String) (c c' : Char) (k : Nat) (ss es : List Int)
    (hc : pre.data.head? = some c) (ht : tgt.data.head? = some c') (hne : c ≠ c') :
    ∀ r ∈ rowsZip (numNames pre k) ss es, r.name ≠ tgt := by
  intro r hr
  obtain ⟨x, hx⟩ := rowsZip_numNames_names pre k ss es r hr
  rw [hx]
  exact append_ne_of_head_ne pre (toString (x + 1)) tgt c c' hc ht hne

lemma perm_pull_sentinels (X : List (Int × Int)) (u d : Int × Int) :
    (X ++ [u, d]).Perm (u :: (X ++ [d])) := List.perm_middle

/-- Everything claims need about the exon DataFrame of a well-formed
sequence: it exists, it is sorted by start, it tiles 1..len exactly once, its
rows are pairwise disjoint with span at least zero, its Upstream/Downstream
sentinel bounds are the source lookups, and only the sentinel row is named
Upstream. -/
lemma exon_master (s : Sequence) (hwf : Wf s) :
    ∃ df, get_exon_dataframe s = some df ∧
      List.Sorted rowLE df ∧
      spanSum df = s.len ∧
      (∀ p : Int, 1 ≤ p → p ≤ (s.len : Int) → countCover p df = 1) ∧
      List.Pairwise rowDisj df ∧
      (∀ r ∈ df, r.start ≤ r.stop + 1) ∧
      lookupEnd df "Upstream" = some (s.exonStarts.headD 0 - 1) ∧
      lookupStart df "Downstream" = some (s.exonEnds.getLastD 0 + 1) ∧
      (∀ r ∈ df, r.name = "Upstream" → r.start = 1 ∧ r.stop = s.exonStarts.headD 0 - 1) := by
  obtain ⟨hne, -, hlen, -, hEok, -, hbounds, -⟩ := hwf
  obtain ⟨e0, es', hes⟩ := List.exists_cons_of_ne_nil hne
  have hne2 : s.exonEnds ≠ [] := by
    intro h0
    rw [hes, h0] at hlen
    simp at hlen
  obtain ⟨ee0, ee', hee⟩ := List.exists_cons_of_ne_nil hne2
  rw [hes, hee] at hlen
  simp only [List.length_cons] at hlen
  set L : Int := (s.len : Int) with hL
  set zs' : List (Int × Int) := es'.zip ee' with hzs'
  have hzsE : s.exonStarts.zip s.exonEnds = (e0, ee0) :: zs' := by
    rw [hes, hee, List.zip_cons_cons]
  set nA := numNames "Exon " (e0 :: es').length with hnA
  set sB := (ee0 :: ee').dropLast.map (fun x => x + 1) with hsB
  set eB := ((e0 :: es').drop 1).map (fun x => x - 1) with heB
  set nB := numNames "Intron " sB.length with hnB
  set dn : Int := ee'.getLastD ee0 + 1 with hdn
  set rowsA := rowsZip nA (e0 :: es') (ee0 :: ee') with hrowsA
  set rowsB := rowsZip nB sB eB with hrowsB
  set rowsC : List Row := [⟨"Upstream", 1, e0 - 1⟩, ⟨"Downstream", dn, L⟩] with hrowsC
  have hlenA : nA.length = (e0 :: es').length := numNames_length _ _
  have hlenA2 : (e0 :: es').length = (ee0 :: ee').length := by simp [hlen]
  have hlenB : nB.length = sB.length := numNames_length _ _
  have hlenB2 : sB.length = eB.length := by
    rw [hsB, heB]
    simp only [List.length_map, List.length_dropLast, List.length_drop, List.length_cons]
    omega
  have hsplit : rowsZip (nA ++ nB ++ ["Upstream", "Downstream"])
      ((e0 :: es') ++ sB ++ [1, dn]) ((ee0 :: ee') ++ eB ++ [e0 - 1, L]) =
      rowsA ++ rowsB ++ rowsC := by
    rw [List.append_assoc nA, List.append_assoc (e0 :: es'), List.append_assoc (ee0 :: ee')]
    rw [rowsZip_append nA _ (e0 :: es') _ (ee0 :: ee') _ hlenA (by rw [hlenA2])]
    rw [rowsZip_append nB _ sB _ eB _ hlenB hlenB2]
    rw [← List.append_assoc]
    rfl
  have hdf : get_exon_dataframe s = some (sortRows (rowsA ++ rowsB ++ rowsC)) := by
    rw [← hsplit]
    unfold get_exon_dataframe
    rw [hes, hee]
    have hcond : (nA ++ nB ++ ["Upstream", "Downstream"]).length =
        ((e0 :: es') ++ sB ++ [1, dn]).length ∧
        ((e0 :: es') ++ sB ++ [1, dn]).length = ((ee0 :: ee') ++ eB ++ [e0 - 1, L]).length := by
      constructor <;>
        simp [hnA, hnB, hsB, heB, numNames_length] <;>
        omega
    show (if (nA ++ nB ++ ["Upstream", "Downstream"]).length =
          ((e0 :: es') ++ sB ++ [1, dn]).length ∧
          ((e0 :: es') ++ sB ++ [1, dn]).length = ((ee0 :: ee') ++ eB ++ [e0 - 1, L]).length then
        some (sortRows (rowsZip (nA ++ nB ++ ["Upstream", "Downstream"])
          ((e0 :: es') ++ sB ++ [1, dn]) ((ee0 :: ee') ++ eB ++ [e0 - 1, L])))
      else none) =
      some (sortRows (rowsZip (nA ++ nB ++ ["Upstream", "Downstream"])
        ((e0 :: es') ++ sB ++ [1, dn]) ((ee0 :: ee') ++ eB ++ [e0 - 1, L])))
    rw [if_pos hcond]
  set df := sortRows (rowsA ++ rowsB ++ rowsC) with hdfeq
  have hsortperm : df.Perm (rowsA ++ rowsB ++ rowsC) := List.perm_insertionSort rowLE _
  -- the coordinate pairs of the unsorted rows
  have hprojA : rowsA.map proj = (e0, ee0) :: zs' := by
    rw [hrowsA, rowsZip_proj nA _ _ hlenA (by rw [hlenA2]), ← List.zip_cons_cons]
  have hprojB : rowsB.map proj = altIntrons ((e0, ee0) :: zs') := by
    rw [hrowsB, rowsZip_proj nB _ _ hlenB hlenB2, hsB, heB]
    have h1 : ee0 :: ee' = ((e0, ee0) :: zs').map Prod.snd := by
      rw [hzs']
      simp [List.map_snd_zip es' ee' (by omega)]
    have h2 : e0 :: es' = ((e0, ee0) :: zs').map Prod.fst := by
      rw [hzs']
      simp [List.map_fst_zip es' ee' (by omega)]
    rw [h1, h2]
    exact zipIntrons_eq_alt _
  have hprojC : rowsC.map proj = [(1, e0 - 1), (dn, L)] := rfl
  have hpairs : ((rowsA ++ rowsB ++ rowsC).map proj).Perm
      (chainIntervals (1 :: (flatCuts ((e0, ee0) :: zs') ++ [L + 1]))) := by
    rw [List.map_append, List.map_append, hprojA, hprojB, hprojC]
    have hstep1 : (((e0, ee0) :: zs') ++ altIntrons ((e0, ee0) :: zs') ++ [(1, e0 - 1), (dn, L)]).Perm
        ((1, e0 - 1) :: (((e0, ee0) :: zs') ++ altIntrons ((e0, ee0) :: zs') ++ [(dn, L)])) :=
      perm_pull_sentinels _ _ _
    have hdnL : ((dn, L) : Int × Int) = ((zs'.getLastD (e0, ee0)).2 + 1, (L + 1) - 1) := by
      have h1 : (zs'.getLastD (e0, ee0)).2 = ee'.getLastD ee0 := by
        rw [hzs']
        exact zip_getLastD_snd es' ee' (by omega) e0 ee0
      have h2 : (L + 1) - 1 = L := by omega
      rw [h1, h2, hdn]
    have hstep2 : (((e0, ee0) :: zs') ++ altIntrons ((e0, ee0) :: zs') ++ [(dn, L)]).Perm
        (chainIntervals (flatCuts ((e0, ee0) :: zs') ++ [L + 1])) := by
      rw [hdnL]
      exact alt_perm zs' (e0, ee0) (L + 1)
    have hhead : chainIntervals (1 :: (flatCuts ((e0, ee0) :: zs') ++ [L + 1])) =
        (1, e0 - 1) :: chainIntervals (flatCuts ((e0, ee0) :: zs') ++ [L + 1]) := by
      rw [flatCuts_cons]
      rfl
    rw [hhead]
    exact hstep1.trans (List.Perm.cons _ hstep2)
  have hspanE : ∀ w ∈ (e0, ee0) :: zs', w.1 ≤ w.2 + 1 := by
    intro w hw
    have := hEok.1 w (by rw [hzsE]; exact hw)
    omega
  have hchainE : List.Chain' (fun w r : Int × Int => w.2 + 1 ≤ r.1) ((e0, ee0) :: zs') := by
    have := hEok.2
    rw [hzsE] at this
    exact this.imp (fun a b hab => by omega)
  have hfirstE : (1 : Int) ≤ e0 := by
    have := hbounds (e0, ee0) (by rw [hzsE]; exact List.mem_cons_self _ _)
    exact this.1
  have hlastE : (zs'.getLastD (e0, ee0)).2 ≤ L := by
    have hmem : zs'.getLastD (e0, ee0) ∈ (e0, ee0) :: zs' := by
      have := getLastD_mem (e0, ee0) zs' (e0, ee0)
      rw [List.getLastD_cons] at this
      exact this
    have := hbounds _ (by rw [hzsE]; exact hmem)
    exact this.2
  obtain ⟨hcut1, hcut2⟩ := cuts_chain (e0, ee0) zs' L hspanE hchainE hfirstE hlastE
  have hdfperm : ((df.map proj) ++ []).Perm
      (chainIntervals (1 :: (flatCuts ((e0, ee0) :: zs') ++ [L + 1]))) := by
    rw [List.append_nil]
    exact (hsortperm.map proj).trans hpairs
  obtain ⟨hts, htc, htp, htsp⟩ := tiling_from_perm df _ s.len [] hdfperm (by simp) hcut1 hcut2
  -- filters for the sentinel lookups
  have hfA : ∀ tgt : String, ∀ c' : Char, tgt.data.head? = some c' → 'E' ≠ c' →
      rowsA.filter (fun r => r.name == tgt) = [] := by
    intro tgt c' ht hnec
    exact filter_beq_nil rowsA "Exon " tgt 'E' c' (rowsZip_numNames_names _ _ _ _) rfl ht hnec
  have hfB : ∀ tgt : String, ∀ c' : Char, tgt.data.head? = some c' → 'I' ≠ c' →
      rowsB.filter (fun r => r.name == tgt) = [] := by
    intro tgt c' ht hnec
    exact filter_beq_nil rowsB "Intron " tgt 'I' c' (rowsZip_numNames_names _ _ _ _) rfl ht hnec
  have hfilterU : df.filter (fun r => r.name == "Upstream") = [⟨"Upstream", 1, e0 - 1⟩] := by
    have hp : (df.filter (fun r => r.name == "Upstream")).Perm
        ((rowsA ++ rowsB ++ rowsC).filter (fun r => r.name == "Upstream")) :=
      hsortperm.filter _
    rw [List.filter_append, List.filter_append, hfA "Upstream" 'U' rfl (by decide),
      hfB "Upstream" 'U' rfl (by decide)] at hp
    have hC : rowsC.filter (fun r => r.name == "Upstream") = [⟨"Upstream", 1, e0 - 1⟩] := by
      rw [hrowsC]
      rfl
    rw [hC] at hp
    simp only [List.nil_append] at hp
    exact List.perm_singleton.mp hp
  have hfilterD : df.filter (fun r => r.name == "Downstream") = [⟨"Downstream", dn, L⟩] := by
    have hp : (df.filter (fun r => r.name == "Downstream")).Perm
        ((rowsA ++ rowsB ++ rowsC).filter (fun r => r.name == "Downstream")) :=
      hsortperm.filter _
    rw [List.filter_append, List.filter_append, hfA "Downstream" 'D' rfl (by decide),
      hfB "Downstream" 'D' rfl (by decide)] at hp
    have hC : rowsC.filter (fun r => r.name == "Downstream") = [⟨"Downstream", dn, L⟩] := by
      rw [hrowsC]
      rfl
    rw [hC] at hp
    simp only [List.nil_append] at hp
    exact List.perm_singleton.mp hp
  refine ⟨df, hdf, List.sorted_insertionSort rowLE _, hts, htc, htp, htsp, ?_, ?_, ?_⟩
  · rw [lookupEnd, hfilterU, hes]
    rfl
  · rw [lookupStart, hfilterD, hee]
    have : (ee0 :: ee').getLastD 0 = ee'.getLastD ee0 := List.getLastD_cons 0 ee0 ee'
    rw [this]
    rfl
  · intro r hr hname
    have hr2 : r ∈ rowsA ++ rowsB ++ rowsC := (hsortperm.mem_iff).mp hr
    rcases List.mem_append.mp hr2 with hAB | hC
    · rcases List.mem_append.mp hAB with hA | hB
      · exact absurd hname
          (mem_rowsZip_numNames_ne "Exon " "Upstream" 'E' 'U' _ _ _ rfl rfl (by decide) r hA)
      · exact absurd hname
          (mem_rowsZip_numNames_ne "Intron " "Upstream" 'I' 'U' _ _ _ rfl rfl (by decide) r hB)
    · rw [hrowsC] at hC
      rcases List.mem_cons.mp hC with rfl | hC2
      · rw [hes]
        exact ⟨rfl, rfl⟩
      · rcases List.mem_singleton.mp hC2 with rfl
        simp at hname

lemma strStarts_append_true (pre pat x : String)
    (h : pat.data.isPrefixOf pre.data = true) :
    strStarts (pre ++ x) pat = true := by
  unfold strStarts
  rw [String.data_append, List.isPrefixOf_iff_prefix] at *
  exact h.trans (List.prefix_append pre.data x.data)

lemma strStarts_append_false_head (pre pat x : String) (c c' : Char)
    (hc : pre.data.head? = some c) (hp : pat.data.head? = some c') (hne : c ≠ c') :
    strStarts (pre ++ x) pat = false := by
  unfold strStarts
  rw [String.data_append]
  cases hpre : pre.data with
  | nil => rw [hpre] at hc; simp at hc
  | cons d rest =>
    cases hpat : pat.data with
    | nil => rw [hpat] at hp; simp at hp
    | cons d' rest' =>
      rw [hpre] at hc
      rw [hpat] at hp
      simp only [List.head?_cons, Option.some.injEq] at hc hp
      rw [Bool.eq_false_iff]
      intro habs
      rw [List.isPrefixOf_iff_prefix, List.cons_append, List.cons_prefix_cons] at habs
      exact hne (by rw [← hc, ← hp, habs.1])

lemma strStarts_append_false_of_le (pre pat x : String)
    (hlen : pat.data.length ≤ pre.data.length)
    (hnp : pat.data.isPrefixOf pre.data = false) :
    strStarts (pre ++ x) pat = false := by
  unfold strStarts
  rw [String.data_append, Bool.eq_false_iff]
  intro habs
  rw [List.isPrefixOf_iff_prefix] at habs
  rw [Bool.eq_false_iff] at hnp
  apply hnp
  rw [List.isPrefixOf_iff_prefix]
  have htake := List.prefix_iff_eq_take.mp habs
  rw [List.take_append_of_le_length hlen] at htake
  rw [List.prefix_iff_eq_take]
  exact htake.trans rfl

lemma getLastD_append_right {α : Type} (xs ys : List α) (d : α) (h : ys ≠ []) :
    (xs ++ ys).getLastD d = ys.getLastD d := by
  induction xs generalizing d with
  | nil => rfl
  | cons x xs' ih =>
    rw [List.cons_append, List.getLastD_cons, ih x]
    exact getLastD_irrel ys x d h

lemma perm_bookkeeping (zsC AC u5 A5 u3 A3 : List (Int × Int)) (up dn j1 j2 : Int × Int) :
    (zsC ++ AC ++ u5 ++ A5 ++ u3 ++ A3 ++ [up, dn] ++ [j1, j2]).Perm
      (up :: ((u5 ++ (zsC ++ u3)) ++ (A5 ++ j1 :: (AC ++ j2 :: A3)) ++ [dn])) := by
  rw [← Multiset.coe_eq_coe]
  have h1 : ([up, dn] : List (Int × Int)) = [up] ++ [dn] := rfl
  have h2 : ([j1, j2] : List (Int × Int)) = [j1] ++ [j2] := rfl
  have h3 : j1 :: (AC ++ j2 :: A3) = [j1] ++ (AC ++ ([j2] ++ A3)) := rfl
  rw [h1, h2, h3]
  simp only [← Multiset.coe_add, ← Multiset.cons_coe]
  simp only [← Multiset.singleton_add]
  abel

lemma filter_strStarts_nil_head (rows : List Row) (pre pat : String) (c c' : Char)
    (hnames : ∀ r ∈ rows, ∃ x : Nat, r.name = pre ++ toString (x + 1))
    (hc : pre.data.head? = some c) (hp : pat.data.head? = some c') (hne : c ≠ c') :
    rows.filter (fun r => strStarts r.name pat) = [] := by
  rw [List.filter_eq_nil_iff]
  intro r hr
  obtain ⟨x, hx⟩ := hnames r hr
  rw [hx, strStarts_append_false_head pre pat _ c c' hc hp hne]
  simp

lemma filter_strStarts_nil_long (rows : List Row) (pre pat : String)
    (hnames : ∀ r ∈ rows, ∃ x : Nat, r.name = pre ++ toString (x + 1))
    (hlen : pat.data.length ≤ pre.data.length)
    (hnp : pat.data.isPrefixOf pre.data = false) :
    rows.filter (fun r => strStarts r.name pat) = [] := by
  rw [List.filter_eq_nil_iff]
  intro r hr
  obtain ⟨x, hx⟩ := hnames r hr
  rw [hx, strStarts_append_false_of_le pre pat _ hlen hnp]
  simp

lemma filter_strStarts_self (rows : List Row) (pre pat : String)
    (hnames : ∀ r ∈ rows, ∃ x : Nat, r.name = pre ++ toString (x + 1))
    (hp : pat.data.isPrefixOf pre.data = true) :
    rows.filter (fun r => strStarts r.name pat) = rows := by
  rw [List.filter_eq_self]
  intro r hr
  obtain ⟨x, hx⟩ := hnames r hr
  rw [hx, strStarts_append_true pre pat _ hp]


/-- Everything claims need about the CDS DataFrame of a well-formed sequence:
it exists, it is sorted by start, it tiles 1..len exactly once, its rows are
pairwise disjoint with span at least zero, the only row named Upstream starts
at 1, and the rows named like 5-prime UTR exons are exactly the pieces the
source utr5 loop produced. -/
lemma cds_master (s : Sequence) (hwf : Wf s) :
    ∃ df, get_cds_dataframe s = some df ∧
      List.Sorted rowLE df ∧
      spanSum df = s.len ∧
      (∀ p : Int, 1 ≤ p → p ≤ (s.len : Int) → countCover p df = 1) ∧
      List.Pairwise rowDisj df ∧
      (∀ r ∈ df, r.start ≤ r.stop + 1) ∧
      (∀ r ∈ df, r.name = "Upstream" → r.start = 1) ∧
      (∃ i, get_atg_exon_index s = some i ∧
        (df.filter (fun r => strStarts r.name "5\x27 UTR Exon")).Perm
          (rowsZip
            (numNames "5\x27 UTR Exon "
              ((utr5Pieces (s.exonStarts.zip s.exonEnds) i (s.cdsStarts.headD 0)).map
                Prod.fst).length)
            ((utr5Pieces (s.exonStarts.zip s.exonEnds) i (s.cdsStarts.headD 0)).map Prod.fst)
            ((utr5Pieces (s.exonStarts.zip s.exonEnds) i (s.cdsStarts.headD 0)).map Prod.snd))) := by
  obtain ⟨dfE, hdfE, -, -, -, -, -, hlookU, hlookD, -⟩ := exon_master s hwf
  obtain ⟨hne, hcne, hlen, hclen, hEok, hCok, hbounds, hcontain⟩ := hwf
  obtain ⟨e0, es', hes⟩ := List.exists_cons_of_ne_nil hne
  have hne2 : s.exonEnds ≠ [] := by
    intro h0
    rw [hes, h0] at hlen
    simp at hlen
  obtain ⟨ee0, ee', hee⟩ := List.exists_cons_of_ne_nil hne2
  obtain ⟨c0, cs', hcs⟩ := List.exists_cons_of_ne_nil hcne
  have hcne2 : s.cdsEnds ≠ [] := by
    intro h0
    rw [hcs, h0] at hclen
    simp at hclen
  obtain ⟨ce0, ce', hce⟩ := List.exists_cons_of_ne_nil hcne2
  have hlenN : es'.length = ee'.length := by
    rw [hes, hee] at hlen
    simpa using hlen
  have hclenN : cs'.length = ce'.length := by
    rw [hcs, hce] at hclen
    simpa using hclen
  set L : Int := (s.len : Int) with hL
  have hheadCs : s.cdsStarts.headD 0 = c0 := by rw [hcs]; rfl
  have hatg : get_atg_pos s = some c0 := by rw [get_atg_pos, hcs]; rfl
  set stop : Int := ce'.getLastD ce0 with hstopdef
  have hstop : get_stop_pos s = some stop := by
    rw [get_stop_pos, hce, getLast?_eq_some_getLastD ce0 ce' 0, List.getLastD_cons, hstopdef]
  set zsE : List (Int × Int) := s.exonStarts.zip s.exonEnds with hzsE
  have hzsEcons : zsE = (e0, ee0) :: (es'.zip ee') := by
    rw [hzsE, hes, hee, List.zip_cons_cons]
  set zsC : List (Int × Int) := s.cdsStarts.zip s.cdsEnds with hzsCdef
  have hzsC : zsC = (c0, ce0) :: (cs'.zip ce') := by
    rw [hzsCdef, hcs, hce, List.zip_cons_cons]
  have hc0ce0 : c0 ≤ ce0 :=
    hCok.1 (c0, ce0) (by rw [hzsC]; exact List.mem_cons_self _ _)
  have hlastC2 : ((cs'.zip ce').getLastD (c0, ce0)).2 = stop :=
    zip_getLastD_snd cs' ce' hclenN c0 ce0
  have hlastCmem : (cs'.zip ce').getLastD (c0, ce0) ∈ zsC := by
    rw [hzsC]
    have h := getLastD_mem (c0, ce0) (cs'.zip ce') (c0, ce0)
    rw [List.getLastD_cons] at h
    exact h
  have hlastC1 : ((cs'.zip ce').getLastD (c0, ce0)).1 ≤ stop := by
    have h := hCok.1 _ hlastCmem
    omega
  have hfind5 : ∃ i, zsE.findIdx? (fun p => decide (p.1 ≤ c0 ∧ c0 ≤ p.2)) = some i := by
    cases hfi : zsE.findIdx? (fun p => decide (p.1 ≤ c0 ∧ c0 ≤ p.2)) with
    | some i => exact ⟨i, rfl⟩
    | none =>
      exfalso
      rw [List.findIdx?_eq_none_iff] at hfi
      obtain ⟨w, hw, hw1, hw2⟩ :=
        hcontain (c0, ce0) (by rw [hzsC]; exact List.mem_cons_self _ _)
      have hfw := hfi w hw
      have hgood : w.1 ≤ c0 ∧ c0 ≤ w.2 := ⟨hw1, le_trans hc0ce0 hw2⟩
      simp [hgood] at hfw
  obtain ⟨i, hfi⟩ := hfind5
  have hidx5 : get_atg_exon_index s = some i := by
    simp only [get_atg_exon_index, Option.bind_eq_bind]
    rw [hatg]
    simp only [Option.some_bind]
    exact hfi
  have hfind3 : ∃ j, zsE.findIdx? (fun p => decide (p.1 ≤ stop ∧ stop ≤ p.2)) = some j := by
    cases hfj : zsE.findIdx? (fun p => decide (p.1 ≤ stop ∧ stop ≤ p.2)) with
    | some j => exact ⟨j, rfl⟩
    | none =>
      exfalso
      rw [List.findIdx?_eq_none_iff] at hfj
      obtain ⟨w, hw, hw1, hw2⟩ := hcontain _ hlastCmem
      have hfw := hfj w hw
      have hgood : w.1 ≤ stop ∧ stop ≤ w.2 := ⟨le_trans hw1 hlastC1, by omega⟩
      simp [hgood] at hfw
  obtain ⟨i2, hfi2⟩ := hfind3
  have hidx3 : get_stop_exon_index s = some i2 := by
    simp only [get_stop_exon_index, Option.bind_eq_bind]
    rw [hstop]
    simp only [Option.some_bind]
    exact hfi2
  obtain ⟨h5ne, h5head, h5last, h5span, h5chain⟩ := utr5_char zsE c0 i hfi hEok.1 hEok.2
  obtain ⟨h3ne, h3head, h3last, h3span, h3chain⟩ := utr3_char zsE stop i2 hfi2 hEok.1 hEok.2
  set u5 : List (Int × Int) := utr5Pieces zsE i c0 with hu5def
  set u3 : List (Int × Int) := utr3Pieces zsE i2 stop with hu3def
  set n1 := numNames "CDS " s.cdsStarts.length with hn1
  set s2 := s.cdsEnds.dropLast.map (fun x => x + 1) with hs2
  set e2 := (s.cdsStarts.drop 1).map (fun x => x - 1) with he2
  set n2 := numNames "Intron " s2.length with hn2
  set s3 := u5.map Prod.fst with hs3
  set e3 := u5.map Prod.snd with he3
  set n3 := numNames "5\x27 UTR Exon " s3.length with hn3
  set s4 := e3.dropLast.map (fun x => x + 1) with hs4
  set e4 := (s3.drop 1).map (fun x => x - 1) with he4
  set n4 := numNames "5\x27 UTR Intron " s4.length with hn4
  set s5 := u3.map Prod.fst with hs5
  set e5 := u3.map Prod.snd with he5
  set n5 := numNames "3\x27 UTR Exon " s5.length with hn5
  set s6 := e5.dropLast.map (fun x => x + 1) with hs6
  set e6 := (s5.drop 1).map (fun x => x - 1) with he6
  set n6 := numNames "3\x27 UTR Intron " s6.length with hn6
  set upEnd : Int := s.exonStarts.headD 0 - 1 with hupEnd
  set dnStart : Int := s.exonEnds.getLastD 0 + 1 with hdnStart
  have hupEndv : upEnd = e0 - 1 := by rw [hupEnd, hes]; rfl
  have hdnStartv : dnStart = ee'.getLastD ee0 + 1 := by
    rw [hdnStart, hee, List.getLastD_cons]
  have hshape : get_cds_dataframe s = some (sortRows (rowsZip
      (n1 ++ n2 ++ n3 ++ n4 ++ n5 ++ n6 ++ ["Upstream", "Downstream"])
      (s.cdsStarts ++ s2 ++ s3 ++ s4 ++ s5 ++ s6 ++ [1, dnStart])
      (s.cdsEnds ++ e2 ++ e3 ++ e4 ++ e5 ++ e6 ++ [upEnd, L]))) := by
    simp only [get_cds_dataframe, Option.bind_eq_bind]
    rw [hdfE]
    simp only [Option.some_bind]
    rw [hlookU]
    simp only [Option.some_bind]
    rw [hatg]
    simp only [Option.some_bind]
    rw [hidx5]
    simp only [Option.some_bind]
    rw [hstop]
    simp only [Option.some_bind]
    rw [hidx3]
    simp only [Option.some_bind]
    rw [hlookD]
    simp only [Option.some_bind]
    rfl
  have hlen1a : n1.length = s.cdsStarts.length := by rw [hn1, numNames_length]
  have hlen2a : n2.length = s2.length := by rw [hn2, numNames_length]
  have hlen2b : s2.length = e2.length := by
    rw [hs2, he2]
    simp only [List.length_map, List.length_dropLast, List.length_drop]
    omega
  have hlen3a : n3.length = s3.length := by rw [hn3, numNames_length]
  have hlen3b : s3.length = e3.length := by
    rw [hs3, he3]
    simp only [List.length_map]
  have hlen4a : n4.length = s4.length := by rw [hn4, numNames_length]
  have hlen4b : s4.length = e4.length := by
    rw [hs4, he4, hs3, he3]
    simp only [List.length_map, List.length_dropLast, List.length_drop]
  have hlen5a : n5.length = s5.length := by rw [hn5, numNames_length]
  have hlen5b : s5.length = e5.length := by
    rw [hs5, he5]
    simp only [List.length_map]
  have hlen6a : n6.length = s6.length := by rw [hn6, numNames_length]
  have hlen6b : s6.length = e6.length := by
    rw [hs6, he6, hs5, he5]
    simp only [List.length_map, List.length_dropLast, List.length_drop]
  set G1 := rowsZip n1 s.cdsStarts s.cdsEnds with hG1
  set G2 := rowsZip n2 s2 e2 with hG2
  set G3 := rowsZip n3 s3 e3 with hG3
  set G4 := rowsZip n4 s4 e4 with hG4
  set G5 := rowsZip n5 s5 e5 with hG5
  set G6 := rowsZip n6 s6 e6 with hG6
  set G7 : List Row := [⟨"Upstream", 1, upEnd⟩, ⟨"Downstream", dnStart, L⟩] with hG7
  have hsplit : rowsZip (n1 ++ n2 ++ n3 ++ n4 ++ n5 ++ n6 ++ ["Upstream", "Downstream"])
      (s.cdsStarts ++ s2 ++ s3 ++ s4 ++ s5 ++ s6 ++ [1, dnStart])
      (s.cdsEnds ++ e2 ++ e3 ++ e4 ++ e5 ++ e6 ++ [upEnd, L]) =
      G1 ++ (G2 ++ (G3 ++ (G4 ++ (G5 ++ (G6 ++ G7))))) := by
    simp only [List.append_assoc]
    rw [rowsZip_append n1 _ s.cdsStarts _ s.cdsEnds _ hlen1a hclen]
    rw [rowsZip_append n2 _ s2 _ e2 _ hlen2a hlen2b]
    rw [rowsZip_append n3 _ s3 _ e3 _ hlen3a hlen3b]
    rw [rowsZip_append n4 _ s4 _ e4 _ hlen4a hlen4b]
    rw [rowsZip_append n5 _ s5 _ e5 _ hlen5a hlen5b]
    rw [rowsZip_append n6 _ s6 _ e6 _ hlen6a hlen6b]
    rfl
  set rawRows := G1 ++ (G2 ++ (G3 ++ (G4 ++ (G5 ++ (G6 ++ G7))))) with hrawRows
  have hdfC : get_cds_dataframe s = some (sortRows rawRows) := by rw [hshape, hsplit]
  set df := sortRows rawRows with hdf
  have hsort : df.Perm rawRows := List.perm_insertionSort _ _
  have hp1 : G1.map proj = zsC := by
    rw [hG1, rowsZip_proj n1 _ _ hlen1a hclen, hzsCdef]
  have hcsmap : s.cdsStarts = zsC.map Prod.fst := by
    rw [hzsCdef, List.map_fst_zip _ _ (le_of_eq hclen)]
  have hcemap : s.cdsEnds = zsC.map Prod.snd := by
    rw [hzsCdef, List.map_snd_zip _ _ (le_of_eq hclen.symm)]
  have hp2 : G2.map proj = altIntrons zsC := by
    rw [hG2, rowsZip_proj n2 _ _ hlen2a hlen2b, hs2, he2, hcsmap, hcemap]
    exact zipIntrons_eq_alt zsC
  have hp3 : G3.map proj = u5 := by
    rw [hG3, rowsZip_proj n3 _ _ hlen3a hlen3b, hs3, he3]
    exact zip_fst_snd u5
  have hp4 : G4.map proj = altIntrons u5 := by
    rw [hG4, rowsZip_proj n4 _ _ hlen4a hlen4b, hs4, he4, hs3, he3]
    exact zipIntrons_eq_alt u5
  have hp5 : G5.map proj = u3 := by
    rw [hG5, rowsZip_proj n5 _ _ hlen5a hlen5b, hs5, he5]
    exact zip_fst_snd u3
  have hp6 : G6.map proj = altIntrons u3 := by
    rw [hG6, rowsZip_proj n6 _ _ hlen6a hlen6b, hs6, he6, hs5, he5]
    exact zipIntrons_eq_alt u3
  have hp7 : G7.map proj = [(1, upEnd), (dnStart, L)] := by rw [hG7]; rfl
  have hraw : rawRows.map proj = zsC ++ (altIntrons zsC ++ (u5 ++ (altIntrons u5 ++
      (u3 ++ (altIntrons u3 ++ [(1, upEnd), (dnStart, L)]))))) := by
    rw [hrawRows]
    simp only [List.map_append, hp1, hp2, hp3, hp4, hp5, hp6, hp7]
  obtain ⟨u5h, u5t, hu5c⟩ := List.exists_cons_of_ne_nil h5ne
  obtain ⟨u3h, u3t, hu3c⟩ := List.exists_cons_of_ne_nil h3ne
  have h5headv : u5h.1 = e0 := by
    rw [hu5c, hzsEcons] at h5head
    simpa using h5head
  have h3headv : u3h.1 = stop + 1 := by
    rw [hu3c] at h3head
    simpa using h3head
  have h5lastv : (u5t.getLastD u5h).2 = c0 - 1 := by
    rw [hu5c, List.getLastD_cons] at h5last
    exact h5last
  have h3lastv : (u3t.getLastD u3h).2 = ee'.getLastD ee0 := by
    rw [hu3c, List.getLastD_cons] at h3last
    rw [h3last, hzsEcons, List.getLastD_cons]
    exact zip_getLastD_snd es' ee' hlenN e0 ee0
  set P : List (Int × Int) := u5 ++ (zsC ++ u3) with hPdef
  have hPcons : P = u5h :: (u5t ++ (zsC ++ u3)) := by
    rw [hPdef, hu5c]
    rfl
  have hzsCu3 : zsC ++ u3 = (c0, ce0) :: ((cs'.zip ce') ++ u3) := by
    rw [hzsC]
    rfl
  have halt2 : altIntrons (zsC ++ u3) =
      altIntrons zsC ++ (stop + 1, stop) :: altIntrons u3 := by
    rw [hzsC, hu3c]
    rw [altIntrons_append (cs'.zip ce') u3t (c0, ce0) u3h]
    have hj : (((cs'.zip ce').getLastD (c0, ce0)).2 + 1, u3h.1 - 1) =
        ((stop + 1 : Int), stop) := by
      rw [hlastC2, h3headv]
      have : stop + 1 - 1 = stop := by omega
      rw [this]
    rw [hj]
  have halt_expand : altIntrons P = altIntrons u5 ++
      ((c0, c0 - 1) :: (altIntrons zsC ++ (stop + 1, stop) :: altIntrons u3)) := by
    rw [hPdef, hu5c, hzsCu3]
    rw [altIntrons_append u5t ((cs'.zip ce') ++ u3) u5h (c0, ce0)]
    rw [← hzsCu3, halt2, ← hu5c]
    have hj : ((u5t.getLastD u5h).2 + 1, (c0, ce0).1 - 1) = ((c0 : Int), c0 - 1) := by
      rw [h5lastv]
      have : c0 - 1 + 1 = c0 := by omega
      rw [this]
    rw [hj]
  have hstep0 : (df.map proj).Perm (rawRows.map proj) := hsort.map proj
  have hpermA : ((rawRows.map proj) ++ [(c0, c0 - 1), (stop + 1, stop)]).Perm
      ((1, upEnd) :: (P ++ altIntrons P ++ [(dnStart, L)])) := by
    rw [hraw, hPdef, halt_expand]
    rw [← Multiset.coe_eq_coe]
    have e1 : [((1 : Int), upEnd), (dnStart, L)] = [((1 : Int), upEnd)] ++ [(dnStart, L)] := rfl
    have e2 : [((c0 : Int), c0 - 1), (stop + 1, stop)] =
      [((c0 : Int), c0 - 1)] ++ [(stop + 1, stop)] := rfl
    have e3 : ((c0 : Int), c0 - 1) :: (altIntrons zsC ++ (stop + 1, stop) :: altIntrons u3) =
      [((c0 : Int), c0 - 1)] ++ (altIntrons zsC ++ ([(stop + 1, stop)] ++ altIntrons u3)) := rfl
    have e4 : ((1 : Int), upEnd) :: (u5 ++ (zsC ++ u3) ++
        (altIntrons u5 ++ ([((c0 : Int), c0 - 1)] ++
          (altIntrons zsC ++ ([(stop + 1, stop)] ++ altIntrons u3)))) ++ [(dnStart, L)]) =
      [((1 : Int), upEnd)] ++ (u5 ++ (zsC ++ u3) ++
        (altIntrons u5 ++ ([((c0 : Int), c0 - 1)] ++
          (altIntrons zsC ++ ([(stop + 1, stop)] ++ altIntrons u3)))) ++ [(dnStart, L)]) := rfl
    rw [e1, e2, e3, e4]
    simp only [← Multiset.coe_add, ← Multiset.cons_coe]
    simp only [← Multiset.singleton_add]
    abel
  have hlast1 : (u5t ++ (zsC ++ u3)).getLastD u5h = u3t.getLastD u3h := by
    rw [getLastD_append_right u5t (zsC ++ u3) u5h (by rw [hzsCu3]; simp),
      getLastD_append_right zsC u3 u5h h3ne, hu3c, List.getLastD_cons]
  have htrail : ((dnStart, L) : Int × Int) =
      (((u5t ++ (zsC ++ u3)).getLastD u5h).2 + 1, (L + 1) - 1) := by
    rw [hlast1, h3lastv, hdnStartv]
    have h2 : (L : Int) + 1 - 1 = L := by omega
    rw [h2]
  have hpermB : (P ++ altIntrons P ++ [(dnStart, L)]).Perm
      (chainIntervals (flatCuts P ++ [L + 1])) := by
    rw [htrail, hPcons]
    exact alt_perm (u5t ++ (zsC ++ u3)) u5h (L + 1)
  have hfcP : flatCuts P = u5h.1 :: ((u5h.2 + 1) :: flatCuts (u5t ++ (zsC ++ u3))) := by
    rw [hPcons, flatCuts_cons]
  have hchainhead : chainIntervals (1 :: (flatCuts P ++ [L + 1])) =
      (1, upEnd) :: chainIntervals (flatCuts P ++ [L + 1]) := by
    rw [hfcP]
    simp only [List.cons_append]
    rw [chainIntervals_cons₂, h5headv, hupEndv]
  have hperm : ((df.map proj) ++ [(c0, c0 - 1), (stop + 1, stop)]).Perm
      (chainIntervals (1 :: (flatCuts P ++ [L + 1]))) := by
    refine ((List.Perm.append_right _ hstep0).trans hpermA).trans ?_
    rw [hchainhead]
    exact List.Perm.cons _ hpermB
  have hspanP : ∀ w ∈ u5h :: (u5t ++ (zsC ++ u3)), w.1 ≤ w.2 + 1 := by
    rw [← hPcons, hPdef]
    intro w hw
    rcases List.mem_append.mp hw with h5 | hw2
    · exact h5span w h5
    rcases List.mem_append.mp hw2 with hC | h3
    · have := hCok.1 w hC
      omega
    · exact h3span w h3
  have hchainP : List.Chain' (fun w r : Int × Int => w.2 + 1 ≤ r.1)
      (u5h :: (u5t ++ (zsC ++ u3))) := by
    rw [← hPcons, hPdef]
    rw [List.chain'_append]
    refine ⟨h5chain, ?_, ?_⟩
    · rw [List.chain'_append]
      refine ⟨hCok.2.imp (fun a b hab => by omega), h3chain, ?_⟩
      intro x hx y hy
      rw [hzsC, getLast?_eq_some_getLastD (c0, ce0) (cs'.zip ce') (c0, ce0)] at hx
      simp only [List.getLastD_cons, Option.mem_def, Option.some.injEq] at hx
      rw [hu3c] at hy
      simp only [List.head?_cons, Option.mem_def, Option.some.injEq] at hy
      rw [← hx, ← hy]
      omega
    · intro x hx y hy
      rw [hu5c, getLast?_eq_some_getLastD u5h u5t u5h] at hx
      simp only [List.getLastD_cons, Option.mem_def, Option.some.injEq] at hx
      rw [hzsCu3] at hy
      simp only [List.head?_cons, Option.mem_def, Option.some.injEq] at hy
      rw [← hx, ← hy]
      have hfst : ((c0, ce0) : Int × Int).1 = c0 := rfl
      rw [hfst, h5lastv]
      omega
  have hfirstP : 1 ≤ u5h.1 := by
    rw [h5headv]
    exact (hbounds (e0, ee0) (by rw [hzsEcons]; exact List.mem_cons_self _ _)).1
  have hlastP : ((u5t ++ (zsC ++ u3)).getLastD u5h).2 ≤ L := by
    have hmemlast : (es'.zip ee').getLastD (e0, ee0) ∈ zsE := by
      rw [hzsEcons]
      have h := getLastD_mem (e0, ee0) (es'.zip ee') (e0, ee0)
      rw [List.getLastD_cons] at h
      exact h
    have h2 : ((es'.zip ee').getLastD (e0, ee0)).2 = ee'.getLastD ee0 :=
      zip_getLastD_snd es' ee' hlenN e0 ee0
    have h3 := (hbounds _ hmemlast).2
    rw [hlast1, h3lastv]
    omega
  obtain ⟨hcut1, hcut2⟩ := cuts_chain u5h (u5t ++ (zsC ++ u3)) L hspanP hchainP hfirstP hlastP
  rw [← hPcons] at hcut1 hcut2
  have hjunkOK : ∀ q ∈ [((c0 : Int), c0 - 1), (stop + 1, stop)], q.1 = q.2 + 1 := by
    intro q hq
    rcases List.mem_cons.mp hq with rfl | hq
    · omega
    rcases List.mem_singleton.mp hq with rfl
    omega
  obtain ⟨hts, htc, htp, htsp⟩ := tiling_from_perm df (flatCuts P ++ [L + 1]) s.len
    [(c0, c0 - 1), (stop + 1, stop)] hperm hjunkOK hcut1 hcut2
  have hup : ∀ r ∈ df, r.name = "Upstream" → r.start = 1 := by
    intro r hr hname
    have hr2 := (hsort.mem_iff).mp hr
    rw [hrawRows] at hr2
    rcases List.mem_append.mp hr2 with h1 | hr2
    · exact absurd hname (mem_rowsZip_numNames_ne "CDS " "Upstream" 'C' 'U'
        s.cdsStarts.length s.cdsStarts s.cdsEnds rfl rfl (by decide) r h1)
    rcases List.mem_append.mp hr2 with h2 | hr2
    · exact absurd hname (mem_rowsZip_numNames_ne "Intron " "Upstream" 'I' 'U'
        s2.length s2 e2 rfl rfl (by decide) r h2)
    rcases List.mem_append.mp hr2 with h3 | hr2
    · exact absurd hname (mem_rowsZip_numNames_ne "5\x27 UTR Exon " "Upstream" '5' 'U'
        s3.length s3 e3 rfl rfl (by decide) r h3)
    rcases List.mem_append.mp hr2 with h4 | hr2
    · exact absurd hname (mem_rowsZip_numNames_ne "5\x27 UTR Intron " "Upstream" '5' 'U'
        s4.length s4 e4 rfl rfl (by decide) r h4)
    rcases List.mem_append.mp hr2 with h5 | hr2
    · exact absurd hname (mem_rowsZip_numNames_ne "3\x27 UTR Exon " "Upstream" '3' 'U'
        s5.length s5 e5 rfl rfl (by decide) r h5)
    rcases List.mem_append.mp hr2 with h6 | h7
    · exact absurd hname (mem_rowsZip_numNames_ne "3\x27 UTR Intron " "Upstream" '3' 'U'
        s6.length s6 e6 rfl rfl (by decide) r h6)
    rw [hG7] at h7
    rcases List.mem_cons.mp h7 with rfl | h7b
    · rfl
    rcases List.mem_singleton.mp h7b with rfl
    simp at hname
  refine ⟨df, hdfC, List.sorted_insertionSort _ _, hts, htc, htp, htsp, hup, i, hidx5, ?_⟩
  rw [hheadCs, ← hu5def, ← hs3, ← he3, ← hn3, ← hG3]
  have hfp : (df.filter (fun r => strStarts r.name "5\x27 UTR Exon")).Perm
      (rawRows.filter (fun r => strStarts r.name "5\x27 UTR Exon")) := hsort.filter _
  rw [hrawRows] at hfp
  simp only [List.filter_append] at hfp
  have ffil1 : G1.filter (fun r => strStarts r.name "5\x27 UTR Exon") = [] :=
    filter_strStarts_nil_head G1 "CDS " _ 'C' '5'
      (rowsZip_numNames_names "CDS " s.cdsStarts.length s.cdsStarts s.cdsEnds) rfl rfl
      (by decide)
  have ffil2 : G2.filter (fun r => strStarts r.name "5\x27 UTR Exon") = [] :=
    filter_strStarts_nil_head G2 "Intron " _ 'I' '5'
      (rowsZip_numNames_names "Intron " s2.length s2 e2) rfl rfl (by decide)
  have ffil3 : G3.filter (fun r => strStarts r.name "5\x27 UTR Exon") = G3 :=
    filter_strStarts_self G3 "5\x27 UTR Exon " _
      (rowsZip_numNames_names "5\x27 UTR Exon " s3.length s3 e3) (by decide)
  have ffil4 : G4.filter (fun r => strStarts r.name "5\x27 UTR Exon") = [] :=
    filter_strStarts_nil_long G4 "5\x27 UTR Intron " _
      (rowsZip_numNames_names "5\x27 UTR Intron " s4.length s4 e4) (by decide) (by decide)
  have ffil5 : G5.filter (fun r => strStarts r.name "5\x27 UTR Exon") = [] :=
    filter_strStarts_nil_head G5 "3\x27 UTR Exon " _ '3' '5'
      (rowsZip_numNames_names "3\x27 UTR Exon " s5.length s5 e5) rfl rfl (by decide)
  have ffil6 : G6.filter (fun r => strStarts r.name "5\x27 UTR Exon") = [] :=
    filter_strStarts_nil_head G6 "3\x27 UTR Intron " _ '3' '5'
      (rowsZip_numNames_names "3\x27 UTR Intron " s6.length s6 e6) rfl rfl (by decide)
  have ffil7 : G7.filter (fun r => strStarts r.name "5\x27 UTR Exon") = [] := by
    have f1 : strStarts "Upstream" "5\x27 UTR Exon" = false := by decide
    have f2 : strStarts "Downstream" "5\x27 UTR Exon" = false := by decide
    rw [hG7]
    simp [List.filter, f1, f2]
  rw [ffil1, ffil2, ffil3, ffil4, ffil5, ffil6, ffil7] at hfp
  simpa using hfp

lemma cds_some_imp_cs_ne (s : Sequence) (df : List Row)
    (hdf : get_cds_dataframe s = some df) : s.cdsStarts ≠ [] := by
  intro h0
  have hnone : get_atg_pos s = none := by rw [get_atg_pos, h0]; rfl
  simp only [get_cds_dataframe, Option.bind_eq_bind] at hdf
  cases hx : get_exon_dataframe s with
  | none => rw [hx] at hdf; simp at hdf
  | some dfe =>
    rw [hx] at hdf
    simp only [Option.some_bind] at hdf
    cases hy : lookupEnd dfe "Upstream" with
    | none => rw [hy] at hdf; simp at hdf
    | some z =>
      rw [hy] at hdf
      simp only [Option.some_bind] at hdf
      rw [hnone] at hdf
      simp at hdf

/-- For well-formed metadata the liftover succeeds and produces one
coding-position string per base. -/
lemma liftover_wf (s : Sequence) (hwf : Wf s) :
    ∃ l, liftover s = some (Except.ok l) ∧ l.length = s.len := by
  obtain ⟨df, hdfC, -, hspan, -, -, -, hup, -⟩ := cds_master s hwf
  obtain ⟨-, hcne, -, -, -, -, -, -⟩ := hwf
  obtain ⟨c0, cs', hcs⟩ := List.exists_cons_of_ne_nil hcne
  have hatg : get_atg_pos s = some c0 := by rw [get_atg_pos, hcs]; rfl
  have h5e : get_utr5_exon_len s = some (utrLenBy df "5\x27 UTR Exon") := by
    rw [get_utr5_exon_len, hdfC]
    rfl
  have h5i : get_utr5_intron_len s = some (utrLenBy df "5\x27 UTR Intron") := by
    rw [get_utr5_intron_len, hdfC]
    rfl
  have h3e : get_utr3_exon_len s = some (utrLenBy df "3\x27 UTR Exon") := by
    rw [get_utr3_exon_len, hdfC]
    rfl
  have hlenT : (liftoverLoop (c0 - utrLenBy df "5\x27 UTR Intron")
      (utrLenBy df "3\x27 UTR Exon")
      ⟨1, -1 * utrLenBy df "5\x27 UTR Exon", 1⟩ df).length = s.len := by
    rw [liftoverLoop_length_spanSum _ _ df _ hup, hspan]
  refine ⟨(liftoverLoop (c0 - utrLenBy df "5\x27 UTR Intron")
      (utrLenBy df "3\x27 UTR Exon")
      ⟨1, -1 * utrLenBy df "5\x27 UTR Exon", 1⟩ df).map renderTok, ?_, ?_⟩
  · simp only [liftover, Option.bind_eq_bind]
    rw [hdfC]
    simp only [Option.some_bind]
    rw [h5e]
    simp only [Option.some_bind]
    rw [h5i]
    simp only [Option.some_bind]
    rw [h3e]
    simp only [Option.some_bind]
    rw [hatg]
    simp only [Option.some_bind]
    rw [if_neg (not_not_intro hlenT)]
    rfl
  · rw [List.length_map]
    exact hlenT

/-- For well-formed metadata both annotation calls succeed with one label per
base. -/
lemma annotate_wf (s : Sequence) (hwf : Wf s) :
    (∃ l, annotate s false = some l ∧ l.length = s.len) ∧
    (∃ l, annotate s true = some l ∧ l.length = s.len) := by
  obtain ⟨dfE, hdfE, -, hspanE, -, -, -, -, -, -⟩ := exon_master s hwf
  obtain ⟨dfC, hdfC, -, hspanC, -, -, -, -, -⟩ := cds_master s hwf
  constructor
  · refine ⟨annotateRows dfE, ?_, ?_⟩
    · rw [annotate, if_neg (by simp), hdfE]
      rfl
    · rw [annotateRows_length, hspanE]
  · refine ⟨annotateRows dfC, ?_, ?_⟩
    · rw [annotate, if_pos rfl, hdfC]
      rfl
    · rw [annotateRows_length, hspanC]

/-- Whenever the CDS partition exists, liftover reduces to its final length
check over the token list generated from that partition. -/
lemma liftover_eq_check (s : Sequence) (df : List Row) (c0 : Int)
    (hdf : get_cds_dataframe s = some df) (hatg : get_atg_pos s = some c0) :
    liftover s =
      if (liftoverLoop (c0 - utrLenBy df "5\x27 UTR Intron")
            (utrLenBy df "3\x27 UTR Exon")
            ⟨1, -1 * utrLenBy df "5\x27 UTR Exon", 1⟩ df).length ≠ s.len
      then some (Except.error (liftoverErrMsg s.len
        (liftoverLoop (c0 - utrLenBy df "5\x27 UTR Intron")
          (utrLenBy df "3\x27 UTR Exon")
          ⟨1, -1 * utrLenBy df "5\x27 UTR Exon", 1⟩ df).length))
      else some (Except.ok ((liftoverLoop (c0 - utrLenBy df "5\x27 UTR Intron")
        (utrLenBy df "3\x27 UTR Exon")
        ⟨1, -1 * utrLenBy df "5\x27 UTR Exon", 1⟩ df).map renderTok)) := by
  have h5e : get_utr5_exon_len s = some (utrLenBy df "5\x27 UTR Exon") := by
    rw [get_utr5_exon_len, hdf]
    rfl
  have h5i : get_utr5_intron_len s = some (utrLenBy df "5\x27 UTR Intron") := by
    rw [get_utr5_intron_len, hdf]
    rfl
  have h3e : get_utr3_exon_len s = some (utrLenBy df "3\x27 UTR Exon") := by
    rw [get_utr3_exon_len, hdf]
    rfl
  simp only [liftover, Option.bind_eq_bind]
  rw [hdf]
  simp only [Option.some_bind]
  rw [h5e]
  simp only [Option.some_bind]
  rw [h5i]
  simp only [Option.some_bind]
  rw [h3e]
  simp only [Option.some_bind]
  rw [hatg]
  simp only [Option.some_bind]
  rfl

/-- C1: On the canonical example (length 10, one exon 1..10, one CDS 4..7, so
ATG at 4 and stop at 7) liftover returns exactly the coding-position strings
c.-3 c.-2 c.-1 for positions 1..3, c.1 c.2 c.3 c.4 for positions 4..7, and
c.*1 c.*2 c.*3 for positions 8..10, each with the fixed c. prefix. -/
theorem claim_C1_canonical_liftover :
    liftover seqCanon = some (Except.ok
      ["c.-3", "c.-2", "c.-1", "c.1", "c.2", "c.3", "c.4",
        "c.*1", "c.*2", "c.*3"]) := by
  decide

/-- C2: whenever the CDS partition exists, liftover either returns a string
list of length exactly s.len (when the generated token list has that length)
or returns the ValueError; it errors if and only if the generated token count
differs from the sequence length, and the error message reports both the
expected and the generated length. -/
theorem claim_C2_liftover_length_check (s : Sequence) (df : List Row)
    (hdf : get_cds_dataframe s = some df) :
    let toks := liftoverLoop (s.cdsStarts.headD 0 - utrLenBy df "5\x27 UTR Intron")
      (utrLenBy df "3\x27 UTR Exon") ⟨1, -1 * utrLenBy df "5\x27 UTR Exon", 1⟩ df
    (toks.length = s.len →
      liftover s = some (Except.ok (toks.map renderTok)) ∧
        (toks.map renderTok).length = s.len) ∧
    (toks.length ≠ s.len →
      liftover s = some (Except.error (liftoverErrMsg s.len toks.length))) ∧
    ((∃ m, liftover s = some (Except.error m)) ↔ toks.length ≠ s.len) := by
  intro toks
  obtain ⟨c0, cs', hcs⟩ := List.exists_cons_of_ne_nil (cds_some_imp_cs_ne s df hdf)
  have hatg : get_atg_pos s = some c0 := by
    rw [get_atg_pos, hcs]
    rfl
  have hhead : s.cdsStarts.headD 0 = c0 := by
    rw [hcs]
    rfl
  have htoks : toks = liftoverLoop (c0 - utrLenBy df "5\x27 UTR Intron")
      (utrLenBy df "3\x27 UTR Exon") ⟨1, -1 * utrLenBy df "5\x27 UTR Exon", 1⟩ df := by
    show liftoverLoop (s.cdsStarts.headD 0 - utrLenBy df "5\x27 UTR Intron")
      (utrLenBy df "3\x27 UTR Exon") ⟨1, -1 * utrLenBy df "5\x27 UTR Exon", 1⟩ df = _
    rw [hhead]
  have hL := liftover_eq_check s df c0 hdf hatg
  rw [← htoks] at hL
  refine ⟨?_, ?_, ?_⟩
  · intro h
    rw [hL, if_neg (not_not_intro h)]
    refine ⟨rfl, ?_⟩
    rw [List.length_map]
    exact h
  · intro h
    rw [hL, if_pos h]
  · constructor
    · rintro ⟨m, hm⟩ heq
      rw [hL, if_neg (not_not_intro heq)] at hm
      simp at hm
    · intro h
      exact ⟨liftoverErrMsg s.len toks.length, by rw [hL, if_pos h]⟩

/-- Witness for C2: the canonical example, where the generated token count is
10 = s.len and liftover succeeds. -/
theorem claim_C2_witness :
    let dfc : List Row := [⟨"5\x27 UTR Exon 1", 1, 3⟩, ⟨"Upstream", 1, 0⟩,
      ⟨"CDS 1", 4, 7⟩, ⟨"3\x27 UTR Exon 1", 8, 10⟩, ⟨"Downstream", 11, 10⟩]
    get_cds_dataframe seqCanon = some dfc ∧
    (let toks := liftoverLoop
        (seqCanon.cdsStarts.headD 0 - utrLenBy dfc "5\x27 UTR Intron")
        (utrLenBy dfc "3\x27 UTR Exon")
        ⟨1, -1 * utrLenBy dfc "5\x27 UTR Exon", 1⟩ dfc;
      (toks.length = seqCanon.len →
        liftover seqCanon = some (Except.ok (toks.map renderTok)) ∧
          (toks.map renderTok).length = seqCanon.len) ∧
      (toks.length ≠ seqCanon.len →
        liftover seqCanon = some (Except.error
          (liftoverErrMsg seqCanon.len toks.length))) ∧
      ((∃ m, liftover seqCanon = some (Except.error m)) ↔
        toks.length ≠ seqCanon.len)) :=
  ⟨by decide, claim_C2_liftover_length_check seqCanon
    [⟨"5\x27 UTR Exon 1", 1, 3⟩, ⟨"Upstream", 1, 0⟩, ⟨"CDS 1", 4, 7⟩,
      ⟨"3\x27 UTR Exon 1", 8, 10⟩, ⟨"Downstream", 11, 10⟩] (by decide)⟩

/-- C3: for well-formed metadata both the exon partition and the CDS partition
are sorted by Start, pairwise non-overlapping, their spans sum to the sequence
length, and they cover every position 1..seq_length exactly once. -/
theorem claim_C3_partitions_tile (s : Sequence) (hwf : Wf s) :
    (∃ df, get_exon_dataframe s = some df ∧ List.Sorted rowLE df ∧
      List.Pairwise rowDisj df ∧ spanSum df = s.len ∧
      ∀ p : Int, 1 ≤ p → p ≤ (s.len : Int) → countCover p df = 1) ∧
    (∃ df, get_cds_dataframe s = some df ∧ List.Sorted rowLE df ∧
      List.Pairwise rowDisj df ∧ spanSum df = s.len ∧
      ∀ p : Int, 1 ≤ p → p ≤ (s.len : Int) → countCover p df = 1) := by
  obtain ⟨df, h1, h2, h3, h4, h5, -, -, -, -⟩ := exon_master s hwf
  obtain ⟨df2, g1, g2, g3, g4, g5, -, -, -⟩ := cds_master s hwf
  exact ⟨⟨df, h1, h2, h5, h3, h4⟩, ⟨df2, g1, g2, g5, g3, g4⟩⟩

/-- Witness for C3: the canonical example is well-formed. -/
theorem claim_C3_witness :
    Wf seqCanon ∧
    ((∃ df, get_exon_dataframe seqCanon = some df ∧ List.Sorted rowLE df ∧
      List.Pairwise rowDisj df ∧ spanSum df = seqCanon.len ∧
      ∀ p : Int, 1 ≤ p → p ≤ (seqCanon.len : Int) → countCover p df = 1) ∧
    (∃ df, get_cds_dataframe seqCanon = some df ∧ List.Sorted rowLE df ∧
      List.Pairwise rowDisj df ∧ spanSum df = seqCanon.len ∧
      ∀ p : Int, 1 ≤ p → p ≤ (seqCanon.len : Int) → countCover p df = 1)) :=
  ⟨by decide, claim_C3_partitions_tile seqCanon (by decide)⟩

/-- C4: annotate concatenates, in partition order, each interval Name repeated
End - Start + 1 times (never a negative count); for well-formed metadata the
label list has length exactly seq_length for both the exon partition
(cds = false) and the CDS partition (cds = true). -/
theorem claim_C4_annotate_labels (s : Sequence) (hwf : Wf s) :
    (∀ df : List Row, annotateRows df =
      (df.map (fun r => List.replicate (r.stop - r.start + 1).toNat r.name)).flatten) ∧
    (∃ l, annotate s false = some l ∧ l.length = s.len) ∧
    (∃ l, annotate s true = some l ∧ l.length = s.len) := by
  refine ⟨?_, annotate_wf s hwf⟩
  intro df
  induction df with
  | nil => rfl
  | cons r rest ih => simp [annotateRows, ih]

/-- Witness for C4: the canonical example. -/
theorem claim_C4_witness :
    Wf seqCanon ∧
    ((∀ df : List Row, annotateRows df =
      (df.map (fun r => List.replicate (r.stop - r.start + 1).toNat r.name)).flatten) ∧
    (∃ l, annotate seqCanon false = some l ∧ l.length = seqCanon.len) ∧
    (∃ l, annotate seqCanon true = some l ∧ l.length = seqCanon.len)) :=
  ⟨by decide, claim_C4_annotate_labels seqCanon (by decide)⟩

/-- C5 counterexample: seqUnsorted has unsorted, overlapping exon arrays, yet
both partition constructors return a partition instead of failing; no
validation happens. -/
theorem claim_C5_counterexample :
    ¬ IntervalsOk (seqUnsorted.exonStarts.zip seqUnsorted.exonEnds) ∧
    (get_exon_dataframe seqUnsorted).isSome = true ∧
    (get_cds_dataframe seqUnsorted).isSome = true := by
  decide

/-- C5 amended: partition construction performs no consistency validation.
get_exon_dataframe returns a partition for any nonempty equal-length exon
arrays, sorted or not; the only inconsistency that aborts construction is an
ATG lying in no exon, which makes get_cds_dataframe fail with a bare
TypeError (modelled none) that names no offending indices. -/
theorem claim_C5_amended (s : Sequence) (h1 : s.exonStarts ≠ [])
    (h3 : s.exonStarts.length = s.exonEnds.length) :
    (get_exon_dataframe s).isSome = true ∧
    (get_atg_exon_index s = none → get_cds_dataframe s = none) := by
  constructor
  · obtain ⟨e0, es', hes⟩ := List.exists_cons_of_ne_nil h1
    have h2 : s.exonEnds ≠ [] := by
      intro h0
      rw [hes, h0] at h3
      simp at h3
    obtain ⟨ee0, ee', hee⟩ := List.exists_cons_of_ne_nil h2
    rw [hes, hee] at h3
    simp only [List.length_cons] at h3
    set nA := numNames "Exon " (e0 :: es').length with hnA
    set sB := (ee0 :: ee').dropLast.map (fun x => x + 1) with hsB
    set eB := ((e0 :: es').drop 1).map (fun x => x - 1) with heB
    set nB := numNames "Intron " sB.length with hnB
    have hcond : (nA ++ nB ++ ["Upstream", "Downstream"]).length =
        ((e0 :: es') ++ sB ++ [1, ee'.getLastD ee0 + 1]).length ∧
        ((e0 :: es') ++ sB ++ [1, ee'.getLastD ee0 + 1]).length =
        ((ee0 :: ee') ++ eB ++ [e0 - 1, (s.len : Int)]).length := by
      constructor <;>
        simp [hnA, hnB, hsB, heB, numNames_length] <;>
        omega
    unfold get_exon_dataframe
    rw [hes, hee]
    show (if (nA ++ nB ++ ["Upstream", "Downstream"]).length =
          ((e0 :: es') ++ sB ++ [1, ee'.getLastD ee0 + 1]).length ∧
          ((e0 :: es') ++ sB ++ [1, ee'.getLastD ee0 + 1]).length =
          ((ee0 :: ee') ++ eB ++ [e0 - 1, (s.len : Int)]).length then
        some (sortRows (rowsZip (nA ++ nB ++ ["Upstream", "Downstream"])
          ((e0 :: es') ++ sB ++ [1, ee'.getLastD ee0 + 1])
          ((ee0 :: ee') ++ eB ++ [e0 - 1, (s.len : Int)])))
      else none).isSome = true
    rw [if_pos hcond]
    rfl
  · intro hA
    simp only [get_cds_dataframe, Option.bind_eq_bind]
    cases hx : get_exon_dataframe s with
    | none => simp
    | some dfe =>
      simp only [Option.some_bind]
      cases hy : lookupEnd dfe "Upstream" with
      | none => simp
      | some z =>
        simp only [Option.some_bind]
        cases hz : get_atg_pos s with
        | none => simp
        | some atg =>
          simp only [Option.some_bind]
          rw [hA]
          simp

/-- Witness for C5: seqAtgOutside has a nonempty, equal-length exon array
pair, so the exon partition is built; its ATG lies in no exon, so the CDS
partition fails. -/
theorem claim_C5_witness :
    seqAtgOutside.exonStarts ≠ [] ∧
    seqAtgOutside.exonStarts.length = seqAtgOutside.exonEnds.length ∧
    ((get_exon_dataframe seqAtgOutside).isSome = true ∧
      (get_atg_exon_index seqAtgOutside = none →
        get_cds_dataframe seqAtgOutside = none)) :=
  ⟨by decide, by decide, claim_C5_amended seqAtgOutside (by decide) (by decide)⟩

/-- C6 counterexample: on the well-formed canonical example both partitions
contain rows violating start ≤ end: the zero-width Upstream sentinel (1, 0)
and the zero-width Downstream sentinel (11, 10). -/
theorem claim_C6_counterexample :
    Wf seqCanon ∧
    (get_exon_dataframe seqCanon).map
        (fun df => df.all (fun r => decide (r.start ≤ r.stop))) = some false ∧
    (get_cds_dataframe seqCanon).map
        (fun df => df.all (fun r => decide (r.start ≤ r.stop))) = some false := by
  decide

/-- C6 amended: for well-formed metadata every row of both partitions
satisfies start ≤ end + 1, i.e. a nonnegative span; start ≤ end itself can
fail, but only by exactly one, on zero-width sentinel rows. -/
theorem claim_C6_amended (s : Sequence) (hwf : Wf s) :
    (∃ df, get_exon_dataframe s = some df ∧ ∀ r ∈ df, r.start ≤ r.stop + 1) ∧
    (∃ df, get_cds_dataframe s = some df ∧ ∀ r ∈ df, r.start ≤ r.stop + 1) := by
  obtain ⟨df, h1, -, -, -, -, h6, -, -, -⟩ := exon_master s hwf
  obtain ⟨df2, g1, -, -, -, -, g6, -, -⟩ := cds_master s hwf
  exact ⟨⟨df, h1, h6⟩, ⟨df2, g1, g6⟩⟩

/-- Witness for C6 amended: the canonical example. -/
theorem claim_C6_witness :
    Wf seqCanon ∧
    ((∃ df, get_exon_dataframe seqCanon = some df ∧
        ∀ r ∈ df, r.start ≤ r.stop + 1) ∧
      (∃ df, get_cds_dataframe seqCanon = some df ∧
        ∀ r ∈ df, r.start ≤ r.stop + 1)) :=
  ⟨by decide, claim_C6_amended seqCanon (by decide)⟩

/-- C7 counterexample: seqAtgAtExonStart is well-formed with its ATG at the
very start of the first exon (no preceding 5-prime UTR exon), yet the CDS
partition contains one zero-width 5-prime UTR Exon placeholder row (1, 0)
rather than zero such rows. -/
theorem claim_C7_counterexample :
    Wf seqAtgAtExonStart ∧
    seqAtgAtExonStart.cdsStarts.headD 0 = seqAtgAtExonStart.exonStarts.headD 0 ∧
    (get_cds_dataframe seqAtgAtExonStart).map
        (fun df => df.filter (fun r => strStarts r.name "5\x27 UTR Exon")) =
      some [⟨"5\x27 UTR Exon 1", 1, 0⟩] := by
  decide

/-- C7 amended: for well-formed metadata whose ATG equals the first exon
start (no preceding 5-prime UTR exon), the CDS partition contains exactly one
5-prime UTR Exon row, the zero-width placeholder (first_exon_start,
first_exon_start - 1) named 5-prime UTR Exon 1 — not zero such rows. -/
theorem claim_C7_amended (s : Sequence) (hwf : Wf s)
    (h0 : s.cdsStarts.headD 0 = s.exonStarts.headD 0) :
    ∃ df, get_cds_dataframe s = some df ∧
      df.filter (fun r => strStarts r.name "5\x27 UTR Exon") =
        [⟨"5\x27 UTR Exon 1", s.exonStarts.headD 0, s.exonStarts.headD 0 - 1⟩] := by
  obtain ⟨df, hdf, -, -, -, -, -, -, i, hidx, hperm⟩ := cds_master s hwf
  obtain ⟨hne, hcne, hlen, -, hEok, -, -, -⟩ := hwf
  obtain ⟨e0, es', hes⟩ := List.exists_cons_of_ne_nil hne
  have hne2 : s.exonEnds ≠ [] := by
    intro hx
    rw [hes, hx] at hlen
    simp at hlen
  obtain ⟨ee0, ee', hee⟩ := List.exists_cons_of_ne_nil hne2
  obtain ⟨c0, cs', hcs⟩ := List.exists_cons_of_ne_nil hcne
  have hhc : s.cdsStarts.headD 0 = c0 := by
    rw [hcs]
    rfl
  have hhe : s.exonStarts.headD 0 = e0 := by
    rw [hes]
    rfl
  have hc0 : c0 = e0 := by
    rw [hhc, hhe] at h0
    exact h0
  have hzip : s.exonStarts.zip s.exonEnds = (e0, ee0) :: es'.zip ee' := by
    rw [hes, hee, List.zip_cons_cons]
  have hspanE : e0 ≤ ee0 :=
    (hEok.1 (e0, ee0) (by rw [hzip]; exact List.mem_cons_self _ _))
  have hatg : get_atg_pos s = some c0 := by
    rw [get_atg_pos, hcs]
    rfl
  have hidx0 : get_atg_exon_index s = some 0 := by
    simp only [get_atg_exon_index, Option.bind_eq_bind]
    rw [hatg]
    simp only [Option.some_bind]
    rw [hzip, List.findIdx?_cons,
      if_pos (by simp only [decide_eq_true_eq]; exact ⟨by omega, by omega⟩)]
  have hi0 : i = 0 := by
    rw [hidx] at hidx0
    exact Option.some.inj hidx0
  subst hi0
  rw [hzip, hhc] at hperm
  have hu : utr5Pieces ((e0, ee0) :: es'.zip ee') 0 c0 = [(e0, c0 - 1)] := by
    simp [utr5Pieces]
  rw [hu] at hperm
  have hrz : rowsZip (numNames "5\x27 UTR Exon " ([(e0, c0 - 1)].map Prod.fst).length)
      ([(e0, c0 - 1)].map Prod.fst) ([(e0, c0 - 1)].map Prod.snd) =
      [⟨"5\x27 UTR Exon 1", e0, c0 - 1⟩] := by
    rfl
  rw [hrz, List.perm_singleton] at hperm
  refine ⟨df, hdf, ?_⟩
  rw [hperm, hhe, hc0]

/-- Witness for C7 amended: seqAtgAtExonStart. -/
theorem claim_C7_witness :
    Wf seqAtgAtExonStart ∧
    seqAtgAtExonStart.cdsStarts.headD 0 = seqAtgAtExonStart.exonStarts.headD 0 ∧
    (∃ df, get_cds_dataframe seqAtgAtExonStart = some df ∧
      df.filter (fun r => strStarts r.name "5\x27 UTR Exon") =
        [⟨"5\x27 UTR Exon 1", seqAtgAtExonStart.exonStarts.headD 0,
          seqAtgAtExonStart.exonStarts.headD 0 - 1⟩]) :=
  ⟨by decide, by decide,
    claim_C7_amended seqAtgAtExonStart (by decide) (by decide)⟩

/-- C8: for a well-formed transcript, if the GRCh37 or GRCh38 coordinate
range does not have exactly seq_length entries, building the lookup table
fails (the pandas ValueError, modelled none); and any table actually returned
carries the two coordinate ranges untruncated and unpadded, with every column
of length exactly seq_length. -/
theorem claim_C8_lookup_lengths (ng : Sequence) (hwf : Wf ng) (g7 g8 : GenomeSeq) :
    ((intRange g7.dataStart (g7.dataEnd + 1 - g7.dataStart)).length ≠ ng.len ∨
      (intRange g8.dataStart (g8.dataEnd + 1 - g8.dataStart)).length ≠ ng.len →
      build_lookup_table ng g7 g8 = none) ∧
    (∀ t, build_lookup_table ng g7 g8 = some t →
      t.g37Pos = intRange g7.dataStart (g7.dataEnd + 1 - g7.dataStart) ∧
      t.g38Pos = intRange g8.dataStart (g8.dataEnd + 1 - g8.dataStart) ∧
      t.g37Pos.length = ng.len ∧ t.g38Pos.length = ng.len ∧
      t.startPos.length = ng.len ∧ t.atgPos.length = ng.len ∧
      t.transcriptPos.length = ng.len ∧ t.allele.length = ng.len ∧
      t.exonAnn.length = ng.len ∧ t.cdsAnn.length = ng.len) := by
  obtain ⟨l, hlift, hllen⟩ := liftover_wf ng hwf
  obtain ⟨⟨a1, ha1, ha1len⟩, ⟨a2, ha2, ha2len⟩⟩ := annotate_wf ng hwf
  obtain ⟨-, hcne, -, -, -, -, -, -⟩ := hwf
  obtain ⟨c0, cs', hcs⟩ := List.exists_cons_of_ne_nil hcne
  have hhd : ng.cdsStarts.head? = some c0 := by
    rw [hcs]
    rfl
  set P1 : List Int := (List.range ng.len).map (fun k : Nat => (k : Int) + 1) with hP1
  set G7 : List Int := intRange g7.dataStart (g7.dataEnd + 1 - g7.dataStart) with hG7
  set G8 : List Int := intRange g8.dataStart (g8.dataEnd + 1 - g8.dataStart) with hG8
  have hP1len : P1.length = ng.len := by
    rw [hP1]
    simp
  have hB : build_lookup_table ng g7 g8 =
      if (P1.map (fun x => x - c0)).length = P1.length ∧ l.length = P1.length ∧
          G7.length = P1.length ∧ G8.length = P1.length ∧
          ng.seq.length = P1.length ∧ a1.length = P1.length ∧
          a2.length = P1.length then
        some ⟨P1, P1.map (fun x => x - c0), l, G7, G8, ng.seq, a1, a2⟩
      else none := by
    simp only [build_lookup_table, Option.bind_eq_bind]
    rw [hhd]
    simp only [Option.some_bind]
    rw [hlift]
    simp only [Option.some_bind]
    rw [ha1]
    simp only [Option.some_bind]
    rw [ha2]
    simp only [Option.some_bind]
    rfl
  constructor
  · intro h
    rw [hB, if_neg]
    intro hc
    obtain ⟨-, -, h7, h8, -, -, -⟩ := hc
    cases h with
    | inl h => exact h (by rw [← hP1len]; exact h7)
    | inr h => exact h (by rw [← hP1len]; exact h8)
  · intro t ht
    rw [hB] at ht
    by_cases hc : (P1.map (fun x => x - c0)).length = P1.length ∧
        l.length = P1.length ∧ G7.length = P1.length ∧ G8.length = P1.length ∧
        ng.seq.length = P1.length ∧ a1.length = P1.length ∧ a2.length = P1.length
    · rw [if_pos hc] at ht
      obtain ⟨h2, h3, h7, h8, h5, h6, h9⟩ := hc
      obtain rfl : (⟨P1, P1.map (fun x => x - c0), l, G7, G8, ng.seq, a1, a2⟩ :
          LookupTab) = t := Option.some.inj ht
      refine ⟨rfl, rfl, ?_, ?_, ?_, ?_, ?_, ?_, ?_, ?_⟩
      · rw [show (⟨P1, P1.map (fun x => x - c0), l, G7, G8, ng.seq, a1, a2⟩ :
          LookupTab).g37Pos = G7 from rfl, ← hP1len]
        exact h7
      · rw [show (⟨P1, P1.map (fun x => x - c0), l, G7, G8, ng.seq, a1, a2⟩ :
          LookupTab).g38Pos = G8 from rfl, ← hP1len]
        exact h8
      · exact hP1len
      · rw [show (⟨P1, P1.map (fun x => x - c0), l, G7, G8, ng.seq, a1, a2⟩ :
          LookupTab).atgPos = P1.map (fun x => x - c0) from rfl, ← hP1len]
        exact h2
      · exact hllen
      · rfl
      · exact ha1len
      · exact ha2len
    · rw [if_neg hc] at ht
      exact absurd ht (by simp)

/-- Witness for C8: on the canonical example, a 6-entry GRCh37 range and a
10-entry GRCh38 range cannot build a table for the length-10 sequence. -/
theorem claim_C8_witness :
    Wf seqCanon ∧ build_lookup_table seqCanon ⟨100, 105⟩ ⟨200, 209⟩ = none :=
  ⟨by decide,
    (claim_C8_lookup_lengths seqCanon (by decide) ⟨100, 105⟩ ⟨200, 209⟩).1
      (Or.inl (by decide))⟩

/-- C9: the genomic-to-transcript mapper, on a genomic position strictly
before the first mRNA segment start, returns
genomic_position - first_mRNA_start - cds_start + 1. -/
theorem claim_C9_upstream_mapping (gpos first cdsStart : Int) (rest : List Int)
    (cds : List (Int × Int)) (h : gpos < first) :
    mapGenomicToTranscript gpos (first :: rest) cds cdsStart =
      some (gpos - first - cdsStart + 1) := by
  unfold mapGenomicToTranscript
  simp [h]

/-- Witness for C9: genomic position 50 before first mRNA start 100 with
cds_start 120 maps to 50 - 100 - 120 + 1 = -169. -/
theorem claim_C9_witness :
    (50 : Int) < 100 ∧
    mapGenomicToTranscript 50 [100, 200] [(150, 180)] 120 =
      some (50 - 100 - 120 + 1) :=
  ⟨by decide, claim_C9_upstream_mapping 50 100 120 [200] [(150, 180)] (by decide)⟩

/-- C10 counterexample: degenerate intervals with end < start are not inert.
The liftover loop body emits two tokens for an Upstream row (3, 2) even
though its end precedes its start, and a CDS row (5, 2) emits nothing but
still shifts the running coding counter, corrupting later tokens. -/
theorem claim_C10_counterexample :
    ((⟨"Upstream", 3, 2⟩ : Row).stop < (⟨"Upstream", 3, 2⟩ : Row).start ∧
      (liftoverStep 0 0 ⟨1, 0, 1⟩ ⟨"Upstream", 3, 2⟩).2 = [Tok.I 1, Tok.I 2]) ∧
    ((⟨"CDS 1", 5, 2⟩ : Row).stop < (⟨"CDS 1", 5, 2⟩ : Row).start ∧
      annotateRows [⟨"CDS 1", 5, 2⟩] = [] ∧
      (liftoverStep 0 0 ⟨1, 0, 1⟩ ⟨"CDS 1", 5, 2⟩).1 ≠ ⟨1, 0, 1⟩) := by
  decide

/-- C10 amended: a row of span zero (end = start - 1) that, if named
Upstream, starts at position 1, contributes no labels to annotate and no
tokens to the liftover loop and leaves all its counters unchanged; and in the
CDS partition of any well-formed transcript, every row with end < start is of
exactly that shape. -/
theorem claim_C10_amended :
    (∀ (aUp u3 : Int) (st : LiftState) (r : Row),
      r.stop + 1 = r.start → (r.name = "Upstream" → r.start = 1) →
      annotateRows [r] = [] ∧ liftoverStep aUp u3 st r = (st, [])) ∧
    (∀ s : Sequence, Wf s → ∀ df : List Row, get_cds_dataframe s = some df →
      ∀ r ∈ df, r.stop < r.start →
        r.stop + 1 = r.start ∧ (r.name = "Upstream" → r.start = 1)) := by
  constructor
  · intro aUp u3 st r h1 h2
    constructor
    · have h0 : (r.stop - r.start + 1).toNat = 0 := by omega
      simp [annotateRows, h0]
    · by_cases hn : r.name = "Upstream"
      · have hst1 : r.start = 1 := h2 hn
        have hstop : r.stop = 0 := by omega
        obtain ⟨sa, sb, sc⟩ := st
        simp only [liftoverStep, hn, hstop]
        rw [if_pos trivial]
        rfl
      · obtain ⟨sa, sb, sc⟩ := st
        have hspan0 : r.stop - r.start + 1 = 0 := by omega
        simp only [liftoverStep, hspan0]
        split_ifs <;>
          first
            | exact absurd (by assumption) hn
            | simp [intRange, natRange1]
  · intro s hwf df hdf r hr hlt
    obtain ⟨df2, hdf2, -, -, -, -, hsp, hup, -⟩ := cds_master s hwf
    rw [hdf] at hdf2
    obtain rfl : df = df2 := Option.some.inj hdf2
    refine ⟨?_, hup r hr⟩
    have := hsp r hr
    omega

/-- Witness for C10 amended: a zero-width CDS row (6, 5) is inert for both
operations, and the canonical CDS partition's only end < start rows are the
zero-width sentinels. -/
theorem claim_C10_witness :
    (annotateRows [⟨"CDS 2", 6, 5⟩] = [] ∧
      liftoverStep 5 7 ⟨2, -3, 4⟩ ⟨"CDS 2", 6, 5⟩ = (⟨2, -3, 4⟩, [])) ∧
    ((⟨"Upstream", 1, 0⟩ : Row).stop + 1 = (⟨"Upstream", 1, 0⟩ : Row).start ∧
      ((⟨"Upstream", 1, 0⟩ : Row).name = "Upstream" →
        (⟨"Upstream", 1, 0⟩ : Row).start = 1)) :=
  ⟨claim_C10_amended.1 5 7 ⟨2, -3, 4⟩ ⟨"CDS 2", 6, 5⟩ (by decide) (by decide),
    claim_C10_amended.2 seqCanon (by decide)
      [⟨"5\x27 UTR Exon 1", 1, 3⟩, ⟨"Upstream", 1, 0⟩, ⟨"CDS 1", 4, 7⟩,
        ⟨"3\x27 UTR Exon 1", 8, 10⟩, ⟨"Downstream", 11, 10⟩]
      (by decide) ⟨"Upstream", 1, 0⟩ (by decide) (by decide)⟩
